import Mathlib

/-!
# Session-ticket issuance, validation and the server dispatch loop

A shallow embedding of `QuicServer` from `src/server.cpp`: the session store
(`std::map<std::string, std::vector<uint8_t>>`), `generateSessionTicket`,
`validateSessionTicket` and one iteration of the receive loop of `run`; and of
`QuicClient` from `src/client.cpp`: `connectWithFullHandshake`, `sendRegularData`,
`connectWith0RTT` and `receiveResponse`.

Conventions of the embedding.
* A `uint8_t` is a `Byte = Fin 256`.  A `char` of a `std::string` is represented by
  its unsigned byte value, so the casts `static_cast<uint8_t>(c)` and
  `static_cast<char>(b)` are the identity on the representation; a `std::string`
  and a `std::vector<uint8_t>` are both `List Byte`.
* `std::map` is an association list with unique keys: `find` is a lookup by key and
  `operator[]=` overwrites in place or inserts.  The iteration order of the map is
  never observed by the program.
* `time(nullptr)` is an input (`now : Int`, a `time_t`); the conversion to
  `uint32_t` is reduction modulo `2^32`.
* The stack array `uint8_t response[1500]` has a capacity: a `memcpy` that would write
  past it is recorded as `Action.overrun` and the model does not follow the program
  beyond that point.  The same holds for `uint8_t packet[1500]` of the client
  (`Outcome.overrun`).
* A wait loop of the client is fed with the list of what its successive `recvfrom`
  calls meet (`Poll`); the steady clock enters as the elapsed time carried by a
  would-block poll, and the result of each `sendto` as a `Bool`.  When the list is
  used up before the loop has left, the call is `Outcome.waiting`.
-/

namespace QuicReplay

/-! ## Bytes and strings -/

/-- One `uint8_t`. -/
abbrev Byte := Fin 256

/-- A `std::vector<uint8_t>` or a raw buffer with its length. -/
abbrev Bytes := List Byte

/-- A `std::string`, each `char` given by its unsigned byte value. -/
abbrev Str := List Byte

/-- The byte of a character (the low eight bits of its code point; exact for ASCII). -/
def charByte (c : Char) : Byte := ⟨c.toNat % 256, Nat.mod_lt _ (by decide)⟩

/-- The bytes of a string literal of the source. -/
def lit (s : String) : Str := s.toList.map charByte

/-- Decimal rendering of a non-negative integer: `std::to_string`. -/
def to_string (n : Nat) : Str := (Nat.toDigits 10 n).map charByte

/-- Conversion of an integer to `uint8_t`. -/
def toByte (n : Nat) : Byte := ⟨n % 256, Nat.mod_lt _ (by decide)⟩

/-- Conversion `static_cast<uint32_t>` of a `time_t`. -/
def toUint32 (t : Int) : Nat := (t % 4294967296).toNat

/-- Big-endian value of a byte sequence. -/
def beValue (bs : Bytes) : Nat := bs.foldl (fun acc b => acc * 256 + b.val) 0

/-- The four timestamp bytes pushed by `generateSessionTicket`. -/
def timestampBytes (timestamp : Nat) : Bytes :=
  [toByte ((timestamp >>> 24) &&& 0xFF), toByte ((timestamp >>> 16) &&& 0xFF),
   toByte ((timestamp >>> 8) &&& 0xFF), toByte (timestamp &&& 0xFF)]

/-! ## The session store -/

/-- The map `session_tickets`: identity string to ticket bytes. -/
abbrev Store := List (Str × Bytes)

namespace Store

/-- Result of `std::map::find`: the mapped value, `none` standing for `end()`. -/
def find (m : Store) (k : Str) : Option Bytes :=
  match m with
  | [] => none
  | (k', v) :: rest => if k' = k then some v else find rest k

/-- Effect of `m[k] = v`: overwrite the entry of `k`, or insert one. -/
def assign (m : Store) (k : Str) (v : Bytes) : Store :=
  match m with
  | [] => [(k, v)]
  | (k', v') :: rest => if k' = k then (k, v) :: rest else (k', v') :: assign rest k v

/-- The keys of the map. -/
def keys (m : Store) : List Str := m.map Prod.fst

end Store

/-! ## The server object -/

/-- The data members of `QuicServer` that the modelled member functions read or write.
`sock_fd` and `local_addr` belong to the environment. -/
structure QuicServer where
  connections : List (Str × Int)
  running : Bool
  session_tickets : Store
deriving DecidableEq, Repr

/-- Function `QuicServer::generateSessionTicket`: returns the ticket and the updated
server. `now` is the value of `time(nullptr)`. -/
def generateSessionTicket (srv : QuicServer) (now : Int) (client_id : Str) :
    Bytes × QuicServer :=
  let timestamp := toUint32 now
  let ticket : Bytes :=
    [charByte 'T', charByte 'K', charByte 'T',
     toByte ((timestamp >>> 24) &&& 0xFF), toByte ((timestamp >>> 16) &&& 0xFF),
     toByte ((timestamp >>> 8) &&& 0xFF), toByte (timestamp &&& 0xFF)] ++ client_id
  (ticket, { srv with session_tickets := srv.session_tickets.assign client_id ticket })

/-- What a call of `validateSessionTicket` leaves behind: the returned `bool`, the
output parameter `client_id`, and the server object. -/
structure Validation where
  ok : Bool
  client_id : Str
  server : QuicServer
deriving DecidableEq, Repr

/-- Function `QuicServer::validateSessionTicket`; `client_id` is the in-out
parameter as the caller passed it. -/
def validateSessionTicket (srv : QuicServer) (ticket : Bytes) (client_id : Str) :
    Validation :=
  if ticket.length < 7 then
    { ok := false, client_id := client_id, server := srv }
  else
    let client_id' : Str := ticket.drop 7
    { ok := (srv.session_tickets.find client_id').isSome, client_id := client_id',
      server := srv }

/-! ## The receive loop of `run` -/

/-- A source address `sockaddr_in`: the raw word `sin_addr.s_addr` and the port in
host order, `ntohs(sin_port)`. -/
structure SockAddr where
  s_addr : Fin 4294967296
  port : Fin 65536
deriving DecidableEq, Repr

/-- What one iteration of the loop does to the outside world. -/
inductive Action where
  /-- Nothing is sent. -/
  | idle
  /-- One call `sendto(sock_fd, response, bytes.length, 0, dest, ...)`. -/
  | sendto (dest : SockAddr) (bytes : Bytes)
  /-- A `memcpy` wrote past the end of `response[1500]`. -/
  | overrun
deriving DecidableEq, Repr

/-- Size of the arrays `buf` and `response`. -/
def MTU : Nat := 1500

/-- The tail of each replying branch: `response[0 ..] = header`,
`memcpy(response + header.length, body, body.length)`, then
`sendto(response, header.length + body.length)`. -/
def respond (dest : SockAddr) (header body : Bytes) : Action :=
  if header.length + body.length ≤ MTU then .sendto dest (header ++ body) else .overrun

/-- The string `client_id` computed at the top of each iteration. -/
def clientId (client_addr : SockAddr) : Str :=
  to_string client_addr.s_addr.val ++ lit ":" ++ to_string client_addr.port.val

/-- The body of the loop after a successful `recvfrom`: `buf` holds the `recv_len`
received bytes, `client_addr` the source address. -/
def dispatch (srv : QuicServer) (now : Int) (client_addr : SockAddr) (buf : Bytes) :
    QuicServer × Action :=
  let client_id := clientId client_addr
  match buf with
  | [] => (srv, .idle)
  | packet_type :: _ =>
    if packet_type = 0x01 then
      let (session_ticket, srv') := generateSessionTicket srv now client_id
      let ticket_len := session_ticket.length
      (srv', respond client_addr
        [0x02, toByte ((ticket_len >>> 8) &&& 0xFF), toByte (ticket_len &&& 0xFF)]
        session_ticket)
    else if packet_type = 0x03 then
      if buf.length < 3 then (srv, .idle)
      else
        let ticket_len := (((buf.getD 1 0).val <<< 8) ||| (buf.getD 2 0).val) % 65536
        if buf.length < 3 + ticket_len then (srv, .idle)
        else
          let ticket := (buf.drop 3).take ticket_len
          let v := validateSessionTicket srv ticket []
          if v.ok then
            let data_offset := 3 + ticket_len
            let early_data : Str := buf.drop data_offset
            let msg := lit "Received your 0-RTT data: " ++ early_data
            (v.server, respond client_addr [0x04] msg)
          else
            (v.server, respond client_addr [0x05] [])
    else if packet_type = 0x06 then
      let data : Str := buf.drop 1
      let msg := lit "Received your regular data: " ++ data
      (srv, respond client_addr [0x07] msg)
    else (srv, .idle)

/-- What one pass through the loop meets. -/
inductive Input where
  /-- Call `recvfrom` failed with `EWOULDBLOCK`/`EAGAIN`: sleep, `continue`. -/
  | wouldBlock
  /-- Call `recvfrom` failed otherwise: `continue`. -/
  | recvError
  /-- A datagram `wire` from `src` is pending; `now` is what `time(nullptr)` returns
  during this iteration. -/
  | datagram (now : Int) (src : SockAddr) (wire : Bytes)
  /-- Signal `SIGINT` was delivered: the handler calls `stop()`. -/
  | interrupt
deriving DecidableEq, Repr

/-- One iteration of `while (running)`. `recvfrom` copies at most `sizeof(buf)` bytes
of the datagram. -/
def iteration (srv : QuicServer) (i : Input) : QuicServer × Action :=
  match i with
  | .wouldBlock => (srv, .idle)
  | .recvError => (srv, .idle)
  | .datagram now src wire => dispatch srv now src (wire.take MTU)
  | .interrupt => ({ srv with running := false }, .idle)

/-- The observable history of a run: the server object, the datagrams sent so far (in
order), and whether the run ended in a write past `response`. -/
structure Trace where
  server : QuicServer
  sent : List (SockAddr × Bytes)
  overrun : Bool
deriving DecidableEq, Repr

/-- The loop `while (running) { ... }` fed with the inputs it meets, one per
iteration. It ends when `running` is false, when the inputs are used up, or at a write
past `response`. -/
def loop (srv : QuicServer) (inputs : List Input) : Trace :=
  match inputs with
  | [] => { server := srv, sent := [], overrun := false }
  | i :: rest =>
    if srv.running then
      match iteration srv i with
      | (srv', .idle) => loop srv' rest
      | (srv', .sendto dest bytes) =>
        let t := loop srv' rest
        { t with sent := (dest, bytes) :: t.sent }
      | (srv', .overrun) => { server := srv', sent := [], overrun := true }
    else { server := srv, sent := [], overrun := false }

/-- Function `QuicServer::run`. -/
def run (srv : QuicServer) (inputs : List Input) : Trace :=
  loop { srv with running := true } inputs

/-! ## Repeated validation and sample values -/

/-- Calling `validateSessionTicket` `n` times in a row on the same ticket bytes, the
server object and the output variable being handed from one call to the next. Returns
what each call returned and output, and the final server. -/
def replayValidate (srv : QuicServer) (ticket : Bytes) (client_id : Str) :
    Nat → List (Bool × Str) × QuicServer
  | 0 => ([], srv)
  | n + 1 =>
    let v := validateSessionTicket srv ticket client_id
    let r := replayValidate v.server ticket v.client_id n
    ((v.ok, v.client_id) :: r.1, r.2)

/-- A freshly constructed server, before `run`. -/
def freshServer : QuicServer := { connections := [], running := false, session_tickets := [] }

/-- The address 127.0.0.1 (as the word `s_addr` of a little-endian host), port 40000. -/
def loopbackClient : SockAddr := { s_addr := 16777343, port := 40000 }

/-- Another peer: 10.0.0.9, port 5555. -/
def otherPeer : SockAddr := { s_addr := 150994954, port := 5555 }

/-- The server after one handshake from `loopbackClient` at time 1700000000. -/
def servedOnce : QuicServer :=
  (generateSessionTicket { freshServer with running := true } 1700000000
    (clientId loopbackClient)).2

/-- The ticket issued in that handshake. -/
def issuedTicket : Bytes :=
  (generateSessionTicket { freshServer with running := true } 1700000000
    (clientId loopbackClient)).1

/-- A well-framed FastPathData datagram of 1498 bytes: type `0x03`, ticket length 21,
the issued ticket, then 1474 bytes `A` of early data. -/
def oversizedEcho : Bytes := [0x03, 0x00, 0x15] ++ issuedTicket ++ List.replicate 1474 0x41

/-- A FastPathData datagram carrying the issued ticket and the early data `hello`. -/
def helloFastPath : Bytes := [0x03, 0x00, 0x15] ++ issuedTicket ++ lit "hello"

/-- A FastPathData datagram whose 8-byte ticket names an identity never issued. -/
def strangerFastPath : Bytes := [0x03, 0x00, 0x08] ++ lit "TKTxxxxA" ++ lit "hello"

/-- A RegularData datagram of 1473 bytes: type `0x06` and 1472 bytes `A`. -/
def oversizedRegular : Bytes := 0x06 :: List.replicate 1472 0x41

/-! ## The client object (`src/client.cpp`) -/

/-- The data members of `QuicClient` that the modelled member functions read or write.
`sock_fd` and `server_addr` belong to the environment. -/
structure QuicClient where
  session_ticket : Bytes
  has_ticket : Bool
deriving DecidableEq, Repr

/-- What one call of the non-blocking `recvfrom` of a client wait loop meets. -/
inductive Poll where
  /-- Call `recvfrom` failed with `EWOULDBLOCK`/`EAGAIN`; `elapsed_ms` is
  `current_time - start_time` of the wait in progress, in whole milliseconds (the
  cast to seconds of the clock's finer ticks is the cast of their whole milliseconds). -/
  | wouldBlock (elapsed_ms : Nat)
  /-- Call `recvfrom` failed otherwise: `continue`. -/
  | recvError
  /-- Call `recvfrom` returned `recv_len = buf.length` and stored these bytes. -/
  | datagram (buf : Bytes)
deriving DecidableEq, Repr

/-- How a call of a client member function ends. -/
inductive Outcome where
  /-- The function returned this `bool`. -/
  | returned (value : Bool)
  /-- The polls are used up and the wait loop is still polling. -/
  | waiting
  /-- A `memcpy` wrote past the end of `packet[1500]`. -/
  | overrun
deriving DecidableEq, Repr

/-- What a call of a client member function leaves behind: how it ended, the client
object, and the datagrams handed to `sendto`, in order. -/
structure Call where
  outcome : Outcome
  client : QuicClient
  sendto : List Bytes
deriving DecidableEq, Repr

/-- The value `duration_cast<seconds>(current_time - start_time).count()`. -/
def elapsedSeconds (elapsed_ms : Nat) : Nat := elapsed_ms / 1000

/-- Filling `uint8_t packet[1500]`: `packet[0 ..] = header`, then
`memcpy(packet + header.length, body, body.length)`; `none` when the copy leaves the
array. -/
def buildPacket (header body : Bytes) : Option Bytes :=
  if header.length + body.length ≤ MTU then some (header ++ body) else none

/-- Function `QuicClient::receiveResponse`, fed with what its polls meet. -/
def receiveResponse : List Poll → Outcome
  | [] => .waiting
  | .wouldBlock elapsed_ms :: rest =>
    if elapsedSeconds elapsed_ms > 5 then .returned false else receiveResponse rest
  | .recvError :: rest => receiveResponse rest
  | .datagram buf :: rest =>
    match buf with
    | [] => receiveResponse rest
    | response_type :: _ =>
      if response_type = 0x04 then .returned true
      else if response_type = 0x05 then .returned false
      else if response_type = 0x07 then .returned true
      else .returned false

/-- Function `QuicClient::sendRegularData`; `sent_ok` tells whether `sendto` returned a
non-negative value. -/
def sendRegularData (c : QuicClient) (data : Str) (sent_ok : Bool) (polls : List Poll) :
    Call :=
  match buildPacket [0x06] data with
  | none => { outcome := .overrun, client := c, sendto := [] }
  | some packet =>
    if sent_ok then { outcome := receiveResponse polls, client := c, sendto := [packet] }
    else { outcome := .returned false, client := c, sendto := [packet] }

/-- Function `QuicClient::connectWith0RTT`; `sent_ok` tells whether `sendto` returned a
non-negative value. -/
def connectWith0RTT (c : QuicClient) (early_data : Str) (sent_ok : Bool)
    (polls : List Poll) : Call :=
  if c.has_ticket then
    let ticket_len := c.session_ticket.length % 65536
    match buildPacket
        [0x03, toByte ((ticket_len >>> 8) &&& 0xFF), toByte (ticket_len &&& 0xFF)]
        (c.session_ticket.take ticket_len ++ early_data) with
    | none => { outcome := .overrun, client := c, sendto := [] }
    | some packet =>
      if sent_ok then { outcome := receiveResponse polls, client := c, sendto := [packet] }
      else { outcome := .returned false, client := c, sendto := [packet] }
  else { outcome := .returned false, client := c, sendto := [] }

/-- The statements `sendRegularData(...); return true;`: once the call has returned,
whatever it returned, the caller returns `true`. -/
def Outcome.thenReturnTrue : Outcome → Outcome
  | .returned _ => .returned true
  | .waiting => .waiting
  | .overrun => .overrun

/-- The loop `while (true)` of `connectWithFullHandshake` that waits for the handshake
response; `probe_ok` is the `sent_ok` of the RegularData probe. -/
def handshakeWait (c : QuicClient) (probe_ok : Bool) : List Poll → Call
  | [] => { outcome := .waiting, client := c, sendto := [] }
  | .wouldBlock elapsed_ms :: rest =>
    if elapsedSeconds elapsed_ms > 5 then
      { outcome := .returned false, client := c, sendto := [] }
    else handshakeWait c probe_ok rest
  | .recvError :: rest => handshakeWait c probe_ok rest
  | .datagram buf :: rest =>
    if buf.head? = some 0x02 then
      if buf.length < 3 then { outcome := .returned false, client := c, sendto := [] }
      else
        let ticket_len := (((buf.getD 1 0).val <<< 8) ||| (buf.getD 2 0).val) % 65536
        if buf.length < 3 + ticket_len then
          { outcome := .returned false, client := c, sendto := [] }
        else
          let c' : QuicClient :=
            { session_ticket := (buf.drop 3).take ticket_len, has_ticket := true }
          let probe := sendRegularData c' (lit "Hello after full handshake!") probe_ok rest
          { outcome := probe.outcome.thenReturnTrue, client := probe.client,
            sendto := probe.sendto }
    else handshakeWait c probe_ok rest

/-- Function `QuicClient::connectWithFullHandshake`; `handshake_ok` and `probe_ok` tell
whether the `sendto` of the handshake packet and of the probe returned a non-negative
value. -/
def connectWithFullHandshake (c : QuicClient) (handshake_ok probe_ok : Bool)
    (polls : List Poll) : Call :=
  match buildPacket [0x01] (lit "client1") with
  | none => { outcome := .overrun, client := c, sendto := [] }
  | some packet =>
    if handshake_ok then
      let w := handshakeWait c probe_ok polls
      { outcome := w.outcome, client := w.client, sendto := packet :: w.sendto }
    else { outcome := .returned false, client := c, sendto := [packet] }

/-- A poll that neither ends a wait of `receiveResponse` nor is looked at: a failed
`recvfrom` before the timeout, or an empty datagram. -/
def Poll.passes : Poll → Bool
  | .wouldBlock elapsed_ms => decide (elapsed_ms < 6000)
  | .recvError => true
  | .datagram buf => buf.isEmpty

/-- A poll that the handshake wait of `connectWithFullHandshake` goes past: a failed
`recvfrom` before the timeout, or a datagram that is empty or does not start with
`0x02`. -/
def Poll.ignoredByHandshake : Poll → Bool
  | .wouldBlock elapsed_ms => decide (elapsed_ms < 6000)
  | .recvError => true
  | .datagram buf => decide (buf.head? ≠ some 0x02)

/-- The FastPathData datagram of the wire format: `0x03`, the 16-bit big-endian length of
the ticket, the ticket, the early data. -/
def fastPathDatagram (ticket : Bytes) (early_data : Str) : Bytes :=
  [0x03, toByte (ticket.length / 256), toByte (ticket.length % 256)] ++ ticket ++ early_data

/-- The HandshakeResponse datagram of the wire format: `0x02`, the 16-bit big-endian
length of the ticket, the ticket. -/
def handshakeResponseDatagram (ticket : Bytes) : Bytes :=
  [0x02, toByte (ticket.length / 256), toByte (ticket.length % 256)] ++ ticket

/-- The probe sent after the handshake. -/
def probeDatagram : Bytes := 0x06 :: lit "Hello after full handshake!"

/-- The handshake packet of the client. -/
def handshakeDatagram : Bytes := 0x01 :: lit "client1"

/-- A client as constructed: no ticket. -/
def freshClient : QuicClient := { session_ticket := [], has_ticket := false }

/-- A client holding the issued ticket. -/
def resumingClient : QuicClient := { session_ticket := issuedTicket, has_ticket := true }

/-- The HandshakeResponse the server sends for `issuedTicket`. -/
def ticketResponse : Bytes := [0x02, 0x00, 0x15] ++ issuedTicket

/-- A RegularData datagram filling the receive buffer: type `0x06` and 1499 bytes `A`. -/
def fullSizeRegular : Bytes := 0x06 :: List.replicate 1499 0x41

/-- A FastPathData datagram filling the receive buffer: type `0x03`, ticket length 21,
the issued ticket, then 1476 bytes `A` of early data. -/
def fullSizeFastPath : Bytes := [0x03, 0x00, 0x15] ++ issuedTicket ++ List.replicate 1476 0x41

/-- The shape of a store entry `(k, v)` written by `generateSessionTicket`: `v` has
`7 + length(k)` bytes, begins with `T`, `K`, `T`, and from offset 7 on is `k`. -/
def Store.EntryShape (e : Str × Bytes) : Prop :=
  e.2.length = 7 + e.1.length
    ∧ e.2.take 3 = [charByte 'T', charByte 'K', charByte 'T']
    ∧ e.2.drop 7 = e.1

/-! ## Arithmetic of the byte conversions -/

theorem toByte_val (n : Nat) : (toByte n).val = n % 256 := rfl

theorem toByte_and_0xFF (n : Nat) : toByte (n &&& 0xFF) = toByte n := by
  apply Fin.ext
  have h := Nat.and_pow_two_sub_one_eq_mod n 8
  norm_num at h
  simp [toByte, h]

theorem toUint32_lt (t : Int) : toUint32 t < 4294967296 := by
  unfold toUint32
  have h := Int.emod_lt_of_pos t (show (0 : Int) < 4294967296 by decide)
  have h0 := Int.emod_nonneg t (show (4294967296 : Int) ≠ 0 by decide)
  omega

theorem toUint32_cast (t : Int) : (toUint32 t : Int) = t % 4294967296 := by
  unfold toUint32
  exact Int.toNat_of_nonneg (Int.emod_nonneg t (by decide))

theorem timestampBytes_eq (n : Nat) :
    timestampBytes n =
      [toByte (n / 16777216), toByte (n / 65536), toByte (n / 256), toByte n] := by
  simp [timestampBytes, toByte_and_0xFF, Nat.shiftRight_eq_div_pow]

theorem beValue_timestampBytes (n : Nat) (h : n < 4294967296) :
    beValue (timestampBytes n) = n := by
  rw [timestampBytes_eq]
  simp only [beValue, List.foldl, toByte_val]
  omega

/-- The 16-bit length read by the `0x03` branch, `(buf[1] << 8) | buf[2]`, is the
big-endian value of the two bytes. -/
theorem shift_or_eq (hi lo : Byte) :
    ((hi.val <<< 8) ||| lo.val) % 65536 = hi.val * 256 + lo.val := by
  have h := Nat.mul_add_lt_is_or (show lo.val < 2 ^ 8 from lo.isLt) hi.val
  have e : hi.val <<< 8 = 2 ^ 8 * hi.val := by rw [Nat.shiftLeft_eq, Nat.mul_comm]
  rw [e, ← h]
  have := hi.isLt
  have := lo.isLt
  omega

/-! ## Length of the sender identity -/

theorem to_string_length_le (n e : Nat) (he : 0 < e) (h : n < 10 ^ e) :
    (to_string n).length ≤ e := by
  simp only [to_string, Nat.toDigits, List.length_map]
  exact Nat.toDigitsCore_length 10 (by decide) (n + 1) n e h he

theorem clientId_length_le (a : SockAddr) : (clientId a).length ≤ 16 := by
  have h1 := to_string_length_le a.s_addr.val 10 (by decide)
    (Nat.lt_trans a.s_addr.isLt (by decide))
  have h2 := to_string_length_le a.port.val 5 (by decide)
    (Nat.lt_trans a.port.isLt (by decide))
  have h3 : (lit ":").length = 1 := by decide
  simp only [clientId, List.length_append, h3]
  omega

theorem lit_append (s t : String) : lit (s ++ t) = lit s ++ lit t := by
  simp [lit]

theorem lit_toString (n : Nat) : lit (toString n) = to_string n := by
  simp [lit, to_string, toString, Nat.repr, List.asString]

/-! ## Lemmas on the store -/

namespace Store

theorem find_assign_self (m : Store) (k : Str) (v : Bytes) :
    (m.assign k v).find k = some v := by
  induction m with
  | nil => simp [assign, find]
  | cons e rest ih =>
    obtain ⟨k', v'⟩ := e
    by_cases h : k' = k
    · simp [assign, find, h]
    · simp [assign, find, h, ih]

theorem find_assign_of_ne (m : Store) (k k' : Str) (v : Bytes) (hne : k' ≠ k) :
    (m.assign k v).find k' = m.find k' := by
  induction m with
  | nil =>
    have h : ¬ k = k' := fun e => hne e.symm
    simp [assign, find, h]
  | cons e rest ih =>
    obtain ⟨k0, v0⟩ := e
    by_cases h : k0 = k
    · subst h
      have h' : ¬ k0 = k' := fun e => hne e.symm
      simp [assign, find, h']
    · by_cases h2 : k0 = k'
      · subst h2
        simp [assign, find, hne]
      · simp [assign, find, h, h2, ih]

theorem mem_keys_iff (m : Store) (k : Str) : k ∈ m.keys ↔ (m.find k).isSome = true := by
  induction m with
  | nil => simp [keys, find]
  | cons e rest ih =>
    obtain ⟨k', v'⟩ := e
    by_cases h : k' = k
    · simp [keys, find, h]
    · have h' : ¬ k = k' := fun e => h e.symm
      have ih' : k ∈ List.map Prod.fst rest ↔ (find rest k).isSome = true := ih
      simp [keys, find, h, h', ih']

theorem mem_keys_assign (m : Store) (k k' : Str) (v : Bytes) :
    k' ∈ (m.assign k v).keys ↔ k' = k ∨ k' ∈ m.keys := by
  rw [mem_keys_iff, mem_keys_iff]
  by_cases h : k' = k
  · subst h
    simp [find_assign_self]
  · simp [find_assign_of_ne m k k' v h, h]

theorem keys_assign (m : Store) (k : Str) (v : Bytes) :
    (m.assign k v).keys = if k ∈ m.keys then m.keys else m.keys ++ [k] := by
  induction m with
  | nil => simp [assign, keys]
  | cons e rest ih =>
    obtain ⟨k', v'⟩ := e
    have ih' : List.map Prod.fst (assign rest k v)
        = if k ∈ List.map Prod.fst rest then List.map Prod.fst rest
          else List.map Prod.fst rest ++ [k] := ih
    by_cases h : k' = k
    · simp [assign, keys, h]
    · have h' : ¬ k = k' := fun e => h e.symm
      by_cases hk : k ∈ List.map Prod.fst rest
      · simp only [assign, keys, h, if_false, List.map_cons, ih', hk, if_true,
          List.mem_cons, or_true]
      · simp only [assign, keys, h, if_false, List.map_cons, ih', hk, List.mem_cons, h',
          or_self, List.cons_append]

theorem keys_assign_nodup (m : Store) (k : Str) (v : Bytes) (h : m.keys.Nodup) :
    (m.assign k v).keys.Nodup := by
  rw [keys_assign]
  split_ifs with hk
  · exact h
  · exact List.Nodup.append h (List.nodup_singleton k) (by simpa using hk)

end Store

/-! ## Issuing and validating -/

theorem generate_ticket (srv : QuicServer) (now : Int) (id : Str) :
    (generateSessionTicket srv now id).1
      = lit "TKT" ++ timestampBytes (toUint32 now) ++ id := rfl

theorem generate_server (srv : QuicServer) (now : Int) (id : Str) :
    (generateSessionTicket srv now id).2
      = { srv with session_tickets :=
            srv.session_tickets.assign id (generateSessionTicket srv now id).1 } := rfl

theorem generate_ticket_drop (srv : QuicServer) (now : Int) (id : Str) :
    ((generateSessionTicket srv now id).1).drop 7 = id := rfl

theorem generate_ticket_length (srv : QuicServer) (now : Int) (id : Str) :
    ((generateSessionTicket srv now id).1).length = 7 + id.length := by
  simp [generateSessionTicket]
  omega

theorem validate_server (srv : QuicServer) (t : Bytes) (cid : Str) :
    (validateSessionTicket srv t cid).server = srv := by
  unfold validateSessionTicket
  split <;> rfl

theorem validate_ok_iff (srv : QuicServer) (t : Bytes) (cid : Str) :
    (validateSessionTicket srv t cid).ok = true
      ↔ 7 ≤ t.length ∧ t.drop 7 ∈ srv.session_tickets.keys := by
  unfold validateSessionTicket
  by_cases h : t.length < 7
  · simp [h]
  · simp [h, Store.mem_keys_iff]
    omega

theorem validate_client_id (srv : QuicServer) (t : Bytes) (cid : Str)
    (h : (validateSessionTicket srv t cid).ok = true) :
    (validateSessionTicket srv t cid).client_id = t.drop 7 := by
  unfold validateSessionTicket at h ⊢
  by_cases h7 : t.length < 7
  · simp [h7] at h
  · simp [h7]

theorem replayValidate_of_ok (srv : QuicServer) (t : Bytes) (id : Str)
    (hlen : 7 ≤ t.length) (hkey : t.drop 7 ∈ srv.session_tickets.keys) (hid : id = t.drop 7)
    (n : Nat) (cid : Str) :
    replayValidate srv t cid n = (List.replicate n (true, id), srv) := by
  induction n generalizing cid with
  | zero => rfl
  | succ n ih =>
    have hok : (validateSessionTicket srv t cid).ok = true :=
      (validate_ok_iff srv t cid).2 ⟨hlen, hkey⟩
    have hc := validate_client_id srv t cid hok
    simp only [replayValidate, validate_server, hok, hc, ih, List.replicate_succ, hid]

/-! ## The claims on the session store -/

/-- C1: for every server, identity `id`, clock value and initial content of the output
parameter, validating the ticket returned by `generateSessionTicket(id)` on the
resulting server returns `true` and outputs exactly `id` (and leaves the server as
it is). -/
theorem issue_then_validate (srv : QuicServer) (now : Int) (id cid : Str) :
    validateSessionTicket (generateSessionTicket srv now id).2
        (generateSessionTicket srv now id).1 cid
      = { ok := true, client_id := id, server := (generateSessionTicket srv now id).2 } := by
  have hlen : ¬ ((generateSessionTicket srv now id).1).length < 7 := by
    rw [generate_ticket_length]
    omega
  unfold validateSessionTicket
  rw [if_neg hlen]
  simp only [generate_ticket_drop]
  rw [generate_server]
  simp [Store.find_assign_self]

/-- C2: `validateSessionTicket(t)` succeeds exactly when `t` has at least 7 bytes and
the bytes from offset 7 on are a key of the store. Hence any 7 bytes followed by a key
are accepted, a buffer of at least 7 bytes whose suffix is no key is rejected, every
buffer shorter than 7 bytes is rejected, and the outcome is the same for any other
leading 7 bytes and any store with the same keys, whatever the stored values. -/
theorem validate_iff_suffix_is_key (srv : QuicServer) (t : Bytes) (cid : Str) :
    ((validateSessionTicket srv t cid).ok = true
        ↔ 7 ≤ t.length ∧ t.drop 7 ∈ srv.session_tickets.keys)
    ∧ (∀ (front : Bytes) (id : Str), front.length = 7 → id ∈ srv.session_tickets.keys →
        (validateSessionTicket srv (front ++ id) cid).ok = true)
    ∧ (7 ≤ t.length → t.drop 7 ∉ srv.session_tickets.keys →
        (validateSessionTicket srv t cid).ok = false)
    ∧ (t.length < 7 → (validateSessionTicket srv t cid).ok = false)
    ∧ (∀ (srv' : QuicServer) (t' : Bytes) (cid' : Str),
        (∀ k, k ∈ srv'.session_tickets.keys ↔ k ∈ srv.session_tickets.keys) →
        7 ≤ t.length → 7 ≤ t'.length → t'.drop 7 = t.drop 7 →
        (validateSessionTicket srv' t' cid').ok = (validateSessionTicket srv t cid).ok) := by
  refine ⟨validate_ok_iff srv t cid, ?_, ?_, ?_, ?_⟩
  · intro front id hf hk
    apply (validate_ok_iff srv (front ++ id) cid).2
    constructor
    · simp [hf]
    · have hd : (front ++ id).drop 7 = id := by
        rw [← hf]
        exact List.drop_left front id
      rw [hd]
      exact hk
  · intro hlen hk
    cases hv : (validateSessionTicket srv t cid).ok with
    | false => rfl
    | true => exact absurd ((validate_ok_iff srv t cid).1 hv).2 hk
  · intro hlen
    cases hv : (validateSessionTicket srv t cid).ok with
    | false => rfl
    | true =>
      have := ((validate_ok_iff srv t cid).1 hv).1
      omega
  · intro srv' t' cid' hkeys hlen hlen' hd
    have h1 := validate_ok_iff srv t cid
    have h2 := validate_ok_iff srv' t' cid'
    rw [hd, hkeys] at h2
    cases hv : (validateSessionTicket srv t cid).ok with
    | true =>
      have := h1.1 hv
      exact h2.2 ⟨hlen', this.2⟩
    | false =>
      cases hv' : (validateSessionTicket srv' t' cid').ok with
      | false => rfl
      | true =>
        have := h2.1 hv'
        have := h1.2 ⟨hlen, this.2⟩
        rw [hv] at this
        exact absurd this (by decide)

/-- Witness for C2: seven bytes `XXXXXXX` followed by the identity issued to the
loopback client are accepted by the server that issued that identity. -/
theorem validate_iff_suffix_is_key_witness :
    (validateSessionTicket servedOnce (lit "XXXXXXX" ++ clientId loopbackClient) []).ok
      = true :=
  (validate_iff_suffix_is_key servedOnce [] []).2.1 (lit "XXXXXXX")
    (clientId loopbackClient) (by decide) (by decide)

/-- C3: `validateSessionTicket` returns the server object it was given, so the store
after the call is the store before; and if one call on `t` succeeds, then for every
`n` each of `n` consecutive calls on the same bytes succeeds with the same output
identity, the server being unchanged at the end. -/
theorem validate_never_consumes (srv : QuicServer) (t : Bytes) (cid : Str) :
    (validateSessionTicket srv t cid).server = srv
    ∧ ((validateSessionTicket srv t cid).ok = true →
        ∀ (n : Nat) (cid' : Str),
          replayValidate srv t cid' n
            = (List.replicate n (true, (validateSessionTicket srv t cid).client_id), srv)) := by
  refine ⟨validate_server srv t cid, ?_⟩
  intro hok n cid'
  have h := (validate_ok_iff srv t cid).1 hok
  exact replayValidate_of_ok srv t _ h.1 h.2 (validate_client_id srv t cid hok) n cid'

/-- Witness for C3: the issued ticket validated five times in a row. -/
theorem validate_never_consumes_witness :
    replayValidate servedOnce issuedTicket [] 5
      = (List.replicate 5 (true, clientId loopbackClient), servedOnce) :=
  (validate_never_consumes servedOnce issuedTicket []).2 (by decide) 5 []

/-- C4: the ticket returned by `generateSessionTicket(id)` at clock value `now` is the
bytes `T`, `K`, `T`, then the four bytes of `now mod 2^32` from the most significant to
the least significant, then the bytes of `id` (the three letters being `0x54 0x4B 0x54`); its length is
`7 + length(id)`, at least 7, and bytes 3..6 read as a big-endian integer give
`now mod 2^32`. -/
theorem ticket_layout (srv : QuicServer) (now : Int) (id : Str) :
    (generateSessionTicket srv now id).1
        = [charByte 'T', charByte 'K', charByte 'T']
          ++ [toByte ((now % 4294967296).toNat / 16777216),
              toByte ((now % 4294967296).toNat / 65536),
              toByte ((now % 4294967296).toNat / 256),
              toByte (now % 4294967296).toNat]
          ++ id
    ∧ [charByte 'T', charByte 'K', charByte 'T'] = [0x54, 0x4B, 0x54]
    ∧ ((generateSessionTicket srv now id).1).length = 7 + id.length
    ∧ 7 ≤ ((generateSessionTicket srv now id).1).length
    ∧ (beValue ((((generateSessionTicket srv now id).1).drop 3).take 4) : Int)
        = now % 4294967296 := by
  refine ⟨?_, by decide, generate_ticket_length srv now id, ?_, ?_⟩
  · rw [generate_ticket, timestampBytes_eq]
    rfl
  · rw [generate_ticket_length]
    omega
  · have h : (((generateSessionTicket srv now id).1).drop 3).take 4
        = timestampBytes (toUint32 now) := rfl
    rw [h, beValue_timestampBytes _ (toUint32_lt now), toUint32_cast]

/-- C5: after `generateSessionTicket(id)` the store maps `id` to the ticket just
returned, whatever it held before; every other key has the value it had before and is
a key afterwards exactly when it was one before; the other members of the server are
untouched. -/
theorem generate_overwrites_only_id (srv : QuicServer) (now : Int) (id : Str) :
    (generateSessionTicket srv now id).2.session_tickets.find id
        = some (generateSessionTicket srv now id).1
    ∧ (∀ k : Str, k ≠ id →
        (generateSessionTicket srv now id).2.session_tickets.find k
          = srv.session_tickets.find k)
    ∧ (∀ k : Str, k ≠ id →
        (k ∈ (generateSessionTicket srv now id).2.session_tickets.keys
          ↔ k ∈ srv.session_tickets.keys))
    ∧ (generateSessionTicket srv now id).2.connections = srv.connections
    ∧ (generateSessionTicket srv now id).2.running = srv.running := by
  rw [generate_server]
  refine ⟨Store.find_assign_self _ _ _, ?_, ?_, rfl, rfl⟩
  · intro k hk
    exact Store.find_assign_of_ne _ _ _ _ hk
  · intro k hk
    simp [Store.mem_keys_assign, hk]

/-- Witness for C5: a second handshake, from another peer, leaves the entry of the
loopback client as it was. -/
theorem generate_overwrites_only_id_witness :
    (generateSessionTicket servedOnce 1700000100 (clientId otherPeer)).2.session_tickets.find
        (clientId loopbackClient)
      = servedOnce.session_tickets.find (clientId loopbackClient) :=
  (generate_overwrites_only_id servedOnce 1700000100 (clientId otherPeer)).2.1
    (clientId loopbackClient) (by decide)

/-! ## The claims on the dispatch loop -/

theorem respond_fits (dest : SockAddr) (header body : Bytes)
    (h : header.length + body.length ≤ 1500) :
    respond dest header body = .sendto dest (header ++ body) := by
  simp [respond, MTU, h]

theorem respond_overrun (dest : SockAddr) (header body : Bytes)
    (h : 1500 < header.length + body.length) :
    respond dest header body = .overrun := by
  have h' : ¬ header.length + body.length ≤ 1500 := by omega
  simp [respond, MTU, h']

theorem dispatch_handshake (srv : QuicServer) (now : Int) (src : SockAddr) (body : Bytes) :
    dispatch srv now src (0x01 :: body)
      = ((generateSessionTicket srv now (clientId src)).2,
          .sendto src
            ([0x02, toByte ((generateSessionTicket srv now (clientId src)).1.length / 256),
              toByte (generateSessionTicket srv now (clientId src)).1.length]
             ++ (generateSessionTicket srv now (clientId src)).1)) := by
  have hlen := generate_ticket_length srv now (clientId src)
  have hid := clientId_length_le src
  simp only [dispatch, if_true, toByte_and_0xFF, Nat.shiftRight_eq_div_pow]
  rw [respond_fits]
  simp only [List.length_cons, List.length_nil]
  omega

theorem take_MTU_cons (b : Byte) (rest : Bytes) :
    (b :: rest).take MTU = b :: rest.take 1499 := rfl

/-- C6: on a datagram whose first byte is `0x01`, whatever follows it, the loop issues a
ticket `t` for the sender identity (decimal `s_addr`, `:`, decimal port) and sends to
the sender exactly `0x02`, the high byte of `length(t)`, the low byte of `length(t)`,
then `t`; the two length bytes read big-endian give `length(t)`, the reply has
`3 + length(t)` bytes, and the outcome is the same for every Handshake body. -/
theorem handshake_reply (srv : QuicServer) (now : Int) (src : SockAddr) (body : Bytes) :
    iteration srv (.datagram now src (0x01 :: body))
        = ((generateSessionTicket srv now (clientId src)).2,
            .sendto src
              ([0x02, toByte ((generateSessionTicket srv now (clientId src)).1.length / 256),
                toByte ((generateSessionTicket srv now (clientId src)).1.length % 256)]
               ++ (generateSessionTicket srv now (clientId src)).1))
    ∧ clientId src = lit (toString src.s_addr.val ++ ":" ++ toString src.port.val)
    ∧ beValue [toByte ((generateSessionTicket srv now (clientId src)).1.length / 256),
               toByte ((generateSessionTicket srv now (clientId src)).1.length % 256)]
        = (generateSessionTicket srv now (clientId src)).1.length
    ∧ ([0x02, toByte ((generateSessionTicket srv now (clientId src)).1.length / 256),
         toByte ((generateSessionTicket srv now (clientId src)).1.length % 256)]
        ++ (generateSessionTicket srv now (clientId src)).1).length
        = 3 + (generateSessionTicket srv now (clientId src)).1.length
    ∧ (∀ body' : Bytes,
        iteration srv (.datagram now src (0x01 :: body'))
          = iteration srv (.datagram now src (0x01 :: body))) := by
  have hmod : ∀ n : Nat, toByte (n % 256) = toByte n := by
    intro n
    apply Fin.ext
    simp [toByte]
  have hlen := generate_ticket_length srv now (clientId src)
  have hid := clientId_length_le src
  refine ⟨?_, ?_, ?_, ?_, ?_⟩
  · simp only [iteration, take_MTU_cons, dispatch_handshake, hmod]
  · simp only [clientId, lit_append, lit_toString]
  · simp only [beValue, List.foldl, toByte_val]
    omega
  · simp only [List.length_append, List.length_cons, List.length_nil]
  · intro body'
    simp only [iteration, take_MTU_cons, dispatch_handshake]

/-- The `0x03` branch on a well-framed datagram: the ticket is `d[3 .. 3+L)`, the early
data `d[3+L ..]`, and the reply is chosen by `validateSessionTicket`. -/
theorem dispatch_fastpath (srv : QuicServer) (now : Int) (src : SockAddr) (d : Bytes)
    (h0 : d.head? = some 0x03) (h3 : 3 ≤ d.length)
    (hL : 3 + ((d.getD 1 0).val * 256 + (d.getD 2 0).val) ≤ d.length) :
    dispatch srv now src d
      = if (validateSessionTicket srv
              ((d.drop 3).take ((d.getD 1 0).val * 256 + (d.getD 2 0).val)) []).ok = true
        then (srv, respond src [0x04]
                (lit "Received your 0-RTT data: "
                  ++ d.drop (3 + ((d.getD 1 0).val * 256 + (d.getD 2 0).val))))
        else (srv, respond src [0x05] []) := by
  cases d with
  | nil => simp at h0
  | cons b rest =>
    have hb : b = 0x03 := by simpa using h0
    subst hb
    have h3' : ¬ (3 :: rest : Bytes).length < 3 := by omega
    have hL' : ¬ (3 :: rest : Bytes).length
        < 3 + (((3 :: rest : Bytes).getD 1 0).val * 256 + ((3 :: rest : Bytes).getD 2 0).val) := by
      omega
    have h31 : ¬ ((3 : Byte) = 1) := by decide
    simp only [dispatch, h31, if_false, if_true, shift_or_eq, h3', hL', validate_server]

theorem fastpath_accept_of_fits (srv : QuicServer) (now : Int) (src : SockAddr) (d : Bytes)
    (h0 : d.head? = some 0x03) (h3 : 3 ≤ d.length)
    (hL : 3 + ((d.getD 1 0).val * 256 + (d.getD 2 0).val) ≤ d.length)
    (hv : (validateSessionTicket srv
            ((d.drop 3).take ((d.getD 1 0).val * 256 + (d.getD 2 0).val)) []).ok = true)
    (hfit : 27 + (d.length - (3 + ((d.getD 1 0).val * 256 + (d.getD 2 0).val))) ≤ 1500) :
    dispatch srv now src d
      = (srv, .sendto src
          ([0x04] ++ (lit "Received your 0-RTT data: "
            ++ d.drop (3 + ((d.getD 1 0).val * 256 + (d.getD 2 0).val))))) := by
  rw [dispatch_fastpath srv now src d h0 h3 hL, if_pos hv, respond_fits]
  have ht : (lit "Received your 0-RTT data: ").length = 26 := by decide
  simp only [List.length_append, List.length_cons, List.length_nil, List.length_drop, ht]
  omega

set_option maxRecDepth 100000 in
/-- C7, evaluated where it fails: `oversizedEcho` is a 1498-byte datagram with first byte
`0x03`, declared ticket length 21 and a ticket that `validateSessionTicket` accepts on
`servedOnce`; the confirmation text and the 1474 bytes of early data take 1500 bytes, so
the `memcpy` to `response + 1` runs one byte past `response[1500]` and the iteration ends
in `Action.overrun`, not in the `sendto` of the echo. -/
theorem fastpath_accept_overruns :
    oversizedEcho.head? = some 0x03
    ∧ oversizedEcho.length = 1498
    ∧ (oversizedEcho.getD 1 0).val * 256 + (oversizedEcho.getD 2 0).val = 21
    ∧ (validateSessionTicket servedOnce ((oversizedEcho.drop 3).take 21) []).ok = true
    ∧ iteration servedOnce (.datagram 1700000200 loopbackClient oversizedEcho)
        = (servedOnce, .overrun)
    ∧ iteration servedOnce (.datagram 1700000200 loopbackClient oversizedEcho)
        ≠ (servedOnce, .sendto loopbackClient
            ([0x04] ++ (lit "Received your 0-RTT data: " ++ oversizedEcho.drop 24))) := by
  decide

/-- C8: on a well-framed FastPathData datagram (first byte `0x03`, at least 3 bytes,
declared ticket length `L` within the bytes that remain) whose ticket `d[3 .. 3+L)` fails
`validateSessionTicket`, the loop body sends to the sender exactly the one byte `0x05`
and returns the server unchanged, and so does the iteration that receives `d` when `d`
fits the receive buffer; the ticket is then shorter than 7 bytes or its suffix from
offset 7 is no key of the store. -/
theorem fastpath_reject (srv : QuicServer) (now : Int) (src : SockAddr) (d : Bytes)
    (h0 : d.head? = some 0x03) (h3 : 3 ≤ d.length)
    (hL : 3 + ((d.getD 1 0).val * 256 + (d.getD 2 0).val) ≤ d.length)
    (hv : (validateSessionTicket srv
            ((d.drop 3).take ((d.getD 1 0).val * 256 + (d.getD 2 0).val)) []).ok = false) :
    dispatch srv now src d = (srv, .sendto src [0x05])
    ∧ (d.length ≤ MTU → iteration srv (.datagram now src d) = (srv, .sendto src [0x05]))
    ∧ (((d.drop 3).take ((d.getD 1 0).val * 256 + (d.getD 2 0).val)).length < 7
        ∨ ((d.drop 3).take ((d.getD 1 0).val * 256 + (d.getD 2 0).val)).drop 7
            ∉ srv.session_tickets.keys) := by
  have hmain : dispatch srv now src d = (srv, .sendto src [0x05]) := by
    have hv' : ¬ (validateSessionTicket srv
        ((d.drop 3).take ((d.getD 1 0).val * 256 + (d.getD 2 0).val)) []).ok = true := by
      rw [hv]
      decide
    rw [dispatch_fastpath srv now src d h0 h3 hL, if_neg hv', respond_fits]
    · rfl
    · decide
  refine ⟨hmain, ?_, ?_⟩
  · intro hfit
    simp only [iteration, List.take_of_length_le hfit, hmain]
  · by_cases hlen : ((d.drop 3).take ((d.getD 1 0).val * 256 + (d.getD 2 0).val)).length < 7
    · exact Or.inl hlen
    · right
      intro hk
      have := (validate_ok_iff srv _ []).2 ⟨by omega, hk⟩
      rw [hv] at this
      exact absurd this (by decide)

/-- Witness for C8: a ticket naming the never-issued identity `A` is answered with the
single byte `0x05`. -/
theorem fastpath_reject_witness :
    dispatch servedOnce 1700000300 otherPeer strangerFastPath
      = (servedOnce, .sendto otherPeer [0x05]) :=
  (fastpath_reject servedOnce 1700000300 otherPeer strangerFastPath
    (by decide) (by decide) (by decide) (by decide)).1

/-! ## Replay and persistence of the store -/

theorem dispatch_fastpath_resend (srv s1 : QuicServer) (now : Int) (a : SockAddr)
    (d r : Bytes) (h0 : d.head? = some 0x03)
    (h : dispatch srv now a d = (s1, .sendto a r)) :
    ∀ (now' : Int) (a' : SockAddr), dispatch srv now' a' d = (srv, .sendto a' r) := by
  intro now' a'
  cases d with
  | nil => simp at h0
  | cons b rest =>
    have hb : b = 0x03 := by simpa using h0
    subst hb
    have h31 : ¬ ((3 : Byte) = 1) := by decide
    simp only [dispatch, h31, if_false, if_true, validate_server, respond] at h ⊢
    split_ifs at h ⊢ <;> simp_all

theorem dispatch_server_cases (srv : QuicServer) (now : Int) (a : SockAddr) (buf : Bytes) :
    (dispatch srv now a buf).1 = srv
      ∨ (dispatch srv now a buf).1 = (generateSessionTicket srv now (clientId a)).2 := by
  cases buf with
  | nil => exact Or.inl rfl
  | cons b rest =>
    simp only [dispatch, validate_server]
    split_ifs <;> simp

theorem iteration_keeps_keys (srv : QuicServer) (i : Input) (id : Str)
    (h : id ∈ srv.session_tickets.keys) : id ∈ (iteration srv i).1.session_tickets.keys := by
  cases i with
  | wouldBlock => exact h
  | recvError => exact h
  | interrupt => exact h
  | datagram now src wire =>
    rcases dispatch_server_cases srv now src (wire.take MTU) with e | e
    · simp only [iteration, e]
      exact h
    · simp only [iteration, e, generate_server]
      exact (Store.mem_keys_assign _ _ _ _).2 (Or.inr h)

theorem loop_keeps_keys (inputs : List Input) (srv : QuicServer) (id : Str)
    (h : id ∈ srv.session_tickets.keys) :
    id ∈ (loop srv inputs).server.session_tickets.keys := by
  induction inputs generalizing srv with
  | nil => exact h
  | cons i rest ih =>
    have hstep := iteration_keeps_keys srv i id h
    unfold loop
    by_cases hrun : srv.running = true
    · rw [if_pos hrun]
      rcases hit : iteration srv i with ⟨srv', act⟩
      rw [hit] at hstep
      cases act with
      | idle => exact ih srv' hstep
      | sendto dest bytes => exact ih srv' hstep
      | overrun => exact hstep
    · rw [if_neg hrun]
      exact h

theorem loop_resend (srv : QuicServer) (d r : Bytes) (hrun : srv.running = true)
    (hd : ∀ (now' : Int) (a' : SockAddr),
      iteration srv (.datagram now' a' d) = (srv, .sendto a' r))
    (deliveries : List (Int × SockAddr)) :
    loop srv (deliveries.map (fun p => Input.datagram p.1 p.2 d))
      = { server := srv, sent := deliveries.map (fun p => (p.2, r)), overrun := false } := by
  induction deliveries with
  | nil => rfl
  | cons p rest ih =>
    simp only [List.map_cons]
    unfold loop
    rw [if_pos hrun, hd p.1 p.2]
    simp only [ih]

theorem dispatch_fastpath_accept_bytes (srv s1 : QuicServer) (now : Int) (a : SockAddr)
    (d r : Bytes) (h0 : d.head? = some 0x03) (hr : r.head? = some 0x04)
    (h : dispatch srv now a d = (s1, .sendto a r)) :
    r = 0x04 :: (lit "Received your 0-RTT data: "
          ++ d.drop (3 + ((d.getD 1 0).val * 256 + (d.getD 2 0).val))) := by
  cases d with
  | nil => simp at h0
  | cons b rest =>
    have hb : b = 0x03 := by simpa using h0
    subst hb
    have h31 : ¬ ((3 : Byte) = 1) := by decide
    simp only [dispatch, h31, if_false, if_true, validate_server, respond, shift_or_eq] at h
    split_ifs at h
    all_goals simp only [Prod.mk.injEq, Action.sendto.injEq, reduceCtorEq, and_false] at h
    · exact h.2.2.symm
    · obtain ⟨-, -, e⟩ := h
      rw [← e] at hr
      exact absurd hr (by decide)

theorem sent_singleton (srv : QuicServer) (i : Input) (a : SockAddr) (r : Bytes)
    (hrun : srv.running = true) (h : (loop srv [i]).sent = [(a, r)]) :
    ∃ s1, iteration srv i = (s1, .sendto a r) := by
  unfold loop at h
  rw [if_pos hrun] at h
  rcases hit : iteration srv i with ⟨s1, act⟩
  rw [hit] at h
  cases act with
  | idle => simp [loop] at h
  | overrun => simp at h
  | sendto dest bytes =>
    simp only [loop, List.cons.injEq, Prod.mk.injEq, and_true] at h
    exact ⟨s1, by rw [h.1, h.2]⟩

/-- C9: if, in some server state, a datagram `d` with first byte `0x03` sent from `a`
is answered with a FastPathAccept `r` (first byte `0x04`), then delivering the same
bytes again any number of times, each time from any sender address and at any clock
value, is answered every time with the same bytes `r`, sent to whoever delivered it;
the server is unchanged and `r` is `0x04`, the confirmation text and the early data
of `d`, none of which involves the sender or earlier deliveries. -/
theorem replay_accepted_again (srv : QuicServer) (now : Int) (a : SockAddr) (d r : Bytes)
    (deliveries : List (Int × SockAddr))
    (h0 : d.head? = some 0x03) (hr : r.head? = some 0x04)
    (hfirst : (run srv [.datagram now a d]).sent = [(a, r)]) :
    run srv (.datagram now a d :: deliveries.map (fun p => Input.datagram p.1 p.2 d))
        = { server := { srv with running := true },
            sent := (a, r) :: deliveries.map (fun p => (p.2, r)),
            overrun := false }
    ∧ run srv (deliveries.map (fun p => Input.datagram p.1 p.2 d))
        = { server := { srv with running := true },
            sent := deliveries.map (fun p => (p.2, r)),
            overrun := false }
    ∧ r = 0x04 :: (lit "Received your 0-RTT data: "
          ++ (d.take MTU).drop
              (3 + (((d.take MTU).getD 1 0).val * 256 + ((d.take MTU).getD 2 0).val))) := by
  obtain ⟨s1, hit⟩ := sent_singleton { srv with running := true } _ a r rfl hfirst
  have h0' : (d.take MTU).head? = some 0x03 := by
    cases d with
    | nil => simp at h0
    | cons b rest => simpa [take_MTU_cons] using h0
  have hall : ∀ (now' : Int) (a' : SockAddr),
      iteration { srv with running := true } (.datagram now' a' d)
        = ({ srv with running := true }, .sendto a' r) :=
    dispatch_fastpath_resend _ s1 now a (d.take MTU) r h0' hit
  refine ⟨?_, ?_, dispatch_fastpath_accept_bytes _ s1 now a (d.take MTU) r h0' hr hit⟩
  · exact loop_resend _ d r rfl hall ((now, a) :: deliveries)
  · exact loop_resend _ d r rfl hall deliveries

/-- Witness for C9: the FastPathData datagram with the issued ticket and `hello`, first
sent by the loopback client, is accepted again when another peer and then the client
deliver the same bytes. -/
theorem replay_accepted_again_witness :
    run servedOnce
        [.datagram 1700000001 loopbackClient helloFastPath,
         .datagram 1700000002 otherPeer helloFastPath,
         .datagram 1700009999 loopbackClient helloFastPath]
      = { server := servedOnce,
          sent := [(loopbackClient, 0x04 :: lit "Received your 0-RTT data: hello"),
                   (otherPeer, 0x04 :: lit "Received your 0-RTT data: hello"),
                   (loopbackClient, 0x04 :: lit "Received your 0-RTT data: hello")],
          overrun := false } :=
  (replay_accepted_again servedOnce 1700000001 loopbackClient helloFastPath
    (0x04 :: lit "Received your 0-RTT data: hello")
    [(1700000002, otherPeer), (1700009999, loopbackClient)]
    (by decide) (by decide) (by decide)).1

/-- C10: if `id` is a key of the store, then after the loop has processed any finite
sequence of inputs (datagrams of any type from any sender at any clock value, empty
polls, an interrupt) `id` is a key of the store of the state the loop has reached, and
every ticket of at least 7 bytes whose suffix from offset 7 is `id`, accepted before, is
accepted in that state. -/
theorem store_entries_never_removed (srv : QuicServer) (id : Str) (inputs : List Input)
    (h : id ∈ srv.session_tickets.keys) :
    id ∈ (run srv inputs).server.session_tickets.keys
    ∧ (∀ (t : Bytes) (cid : Str), 7 ≤ t.length → t.drop 7 = id →
        (validateSessionTicket srv t cid).ok = true
        ∧ (validateSessionTicket (run srv inputs).server t cid).ok = true) := by
  have hk : id ∈ (run srv inputs).server.session_tickets.keys :=
    loop_keeps_keys inputs { srv with running := true } id h
  refine ⟨hk, ?_⟩
  intro t cid hlen hd
  constructor
  · exact (validate_ok_iff srv t cid).2 ⟨hlen, by rw [hd]; exact h⟩
  · exact (validate_ok_iff _ t cid).2 ⟨hlen, by rw [hd]; exact hk⟩

/-- Witness for C10: after a second handshake, a rejected and an accepted fast-path
datagram, an unknown packet and a regular one, the identity of the loopback client is
still a key. -/
theorem store_entries_never_removed_witness :
    clientId loopbackClient ∈
      (run servedOnce
        [.datagram 1700000100 otherPeer [0x01],
         .datagram 1700000101 otherPeer strangerFastPath,
         .datagram 1700000102 otherPeer helloFastPath,
         .wouldBlock,
         .datagram 1700000103 otherPeer [0x09, 0x00],
         .datagram 1700000104 loopbackClient (0x06 :: lit "ping")]).server.session_tickets.keys :=
  (store_entries_never_removed servedOnce (clientId loopbackClient) _ (by decide)).1

/-! ## Datagrams the server drops, and the RegularData echo -/

theorem dispatch_unknown (srv : QuicServer) (now : Int) (src : SockAddr) (buf : Bytes)
    (h : ∀ b, buf.head? = some b → b ≠ 0x01 ∧ b ≠ 0x03 ∧ b ≠ 0x06) :
    dispatch srv now src buf = (srv, .idle) := by
  cases buf with
  | nil => rfl
  | cons b rest =>
    obtain ⟨h1, h3, h6⟩ := h b rfl
    simp only [dispatch, h1, h3, h6, if_false]

theorem head_take_MTU (d : Bytes) : (d.take MTU).head? = d.head? := by
  cases d with
  | nil => rfl
  | cons b rest => rfl

theorem loop_not_running (srv : QuicServer) (inputs : List Input)
    (h : ¬ srv.running = true) :
    loop srv inputs = { server := srv, sent := [], overrun := false } := by
  cases inputs with
  | nil => rfl
  | cons i rest =>
    unfold loop
    rw [if_neg h]

theorem loop_skip_idle (i : Input) (hi : ∀ s : QuicServer, iteration s i = (s, .idle))
    (pre rest : List Input) (srv : QuicServer) :
    loop srv (pre ++ i :: rest) = loop srv (pre ++ rest) := by
  induction pre generalizing srv with
  | nil =>
    simp only [List.nil_append]
    by_cases hrun : srv.running = true
    · conv_lhs => unfold loop
      rw [if_pos hrun, hi srv]
    · rw [loop_not_running srv _ hrun, loop_not_running srv _ hrun]
  | cons p pre ih =>
    simp only [List.cons_append]
    by_cases hrun : srv.running = true
    · conv_lhs => unfold loop
      conv_rhs => unfold loop
      rw [if_pos hrun, if_pos hrun]
      rcases hit : iteration srv p with ⟨s1, act⟩
      cases act with
      | idle => exact ih s1
      | sendto dest bytes => simp only [ih s1]
      | overrun => rfl
    · rw [loop_not_running srv _ hrun, loop_not_running srv _ hrun]

/-- C11: a received datagram that is empty, or whose first byte is none of `0x01`,
`0x03`, `0x06` (so also the response types `0x02`, `0x04`, `0x05`, `0x07`), gets no
reply and leaves the server object, hence the store, as it is; and a run in which such
a datagram arrives at any point sends the same datagrams and ends in the same state as
the run without it. -/
theorem unknown_type_dropped (srv : QuicServer) (now : Int) (src : SockAddr) (d : Bytes)
    (pre rest : List Input)
    (h : ∀ b, d.head? = some b → b ≠ 0x01 ∧ b ≠ 0x03 ∧ b ≠ 0x06) :
    iteration srv (.datagram now src d) = (srv, .idle)
    ∧ run srv (pre ++ .datagram now src d :: rest) = run srv (pre ++ rest) := by
  have hall : ∀ s : QuicServer, iteration s (.datagram now src d) = (s, .idle) := by
    intro s
    simp only [iteration]
    exact dispatch_unknown s now src _ (by rw [head_take_MTU]; exact h)
  exact ⟨hall srv, loop_skip_idle _ hall pre rest _⟩

/-- Witness for C11: a stray FastPathAccept between a handshake and a fast-path
datagram changes nothing of the run. -/
theorem unknown_type_dropped_witness :
    run freshServer
        ([.datagram 1700000000 loopbackClient [0x01]]
          ++ .datagram 1700000001 otherPeer (0x04 :: lit "Received") ::
            [.datagram 1700000002 loopbackClient helloFastPath])
      = run freshServer
        ([.datagram 1700000000 loopbackClient [0x01]]
          ++ [.datagram 1700000002 loopbackClient helloFastPath]) :=
  (unknown_type_dropped freshServer 1700000001 otherPeer (0x04 :: lit "Received")
    [.datagram 1700000000 loopbackClient [0x01]]
    [.datagram 1700000002 loopbackClient helloFastPath]
    (by
      intro b hb
      obtain rfl : (0x04 : Byte) = b := by simpa using hb
      decide)).2

theorem regular_reply_of_fits (srv : QuicServer) (now : Int) (src : SockAddr) (data : Bytes)
    (hfit : 29 + data.length ≤ 1500) :
    dispatch srv now src (0x06 :: data)
      = (srv, .sendto src ([0x07] ++ (lit "Received your regular data: " ++ data))) := by
  have h61 : ¬ ((6 : Byte) = 1) := by decide
  have h63 : ¬ ((6 : Byte) = 3) := by decide
  simp only [dispatch, h61, h63, if_false, if_true, List.drop_succ_cons, List.drop_zero]
  rw [respond_fits]
  have ht : (lit "Received your regular data: ").length = 28 := by decide
  simp only [List.length_append, List.length_cons, List.length_nil, ht]
  omega

set_option maxRecDepth 100000 in
/-- C12, evaluated where it fails: `oversizedRegular` is a 1473-byte datagram with first
byte `0x06`; the text and the 1472 payload bytes take 1500 bytes, so the `memcpy` to
`response + 1` runs one byte past `response[1500]` and the iteration ends in
`Action.overrun`, not in the `sendto` of the echo. -/
theorem regular_echo_overruns :
    oversizedRegular.head? = some 0x06
    ∧ oversizedRegular.length = 1473
    ∧ iteration servedOnce (.datagram 1700000200 loopbackClient oversizedRegular)
        = (servedOnce, .overrun)
    ∧ iteration servedOnce (.datagram 1700000200 loopbackClient oversizedRegular)
        ≠ (servedOnce, .sendto loopbackClient
            ([0x07] ++ (lit "Received your regular data: " ++ oversizedRegular.drop 1))) := by
  decide

/-- C13: on a datagram with first byte `0x03` that has fewer than 3 bytes, or whose
declared big-endian 16-bit ticket length `L` exceeds the bytes after the 3-byte header,
the loop body sends nothing at all and returns the server unchanged, whatever the store
holds; so does the iteration that receives it when it fits the receive buffer. -/
theorem truncated_fastpath_dropped (srv : QuicServer) (now : Int) (src : SockAddr)
    (d : Bytes) (h0 : d.head? = some 0x03)
    (hbad : d.length < 3 ∨ d.length - 3 < (d.getD 1 0).val * 256 + (d.getD 2 0).val) :
    dispatch srv now src d = (srv, .idle)
    ∧ (d.length ≤ MTU → iteration srv (.datagram now src d) = (srv, .idle)) := by
  have hmain : dispatch srv now src d = (srv, .idle) := by
    cases d with
    | nil => rfl
    | cons b rest =>
      have hb : b = 0x03 := by simpa using h0
      subst hb
      have h31 : ¬ ((3 : Byte) = 1) := by decide
      simp only [dispatch, h31, if_false, if_true, shift_or_eq]
      by_cases h3 : (3 :: rest : Bytes).length < 3
      · rw [if_pos h3]
      · rw [if_neg h3, if_pos (by omega)]
  refine ⟨hmain, ?_⟩
  intro hfit
  simp only [iteration, List.take_of_length_le hfit, hmain]

/-- Witness for C13: a FastPathData datagram declaring a 21-byte ticket but carrying
only 5 bytes after the header. -/
theorem truncated_fastpath_dropped_witness :
    dispatch servedOnce 1700000400 loopbackClient ([0x03, 0x00, 0x15] ++ lit "TKTab")
      = (servedOnce, .idle) :=
  (truncated_fastpath_dropped servedOnce 1700000400 loopbackClient
    ([0x03, 0x00, 0x15] ++ lit "TKTab") (by decide) (by decide)).1

/-! ## The client: packets and the handshake response -/

theorem buildPacket_fits (header body : Bytes) (h : header.length + body.length ≤ 1500) :
    buildPacket header body = some (header ++ body) := by
  simp [buildPacket, MTU, h]

theorem buildPacket_overrun (header body : Bytes) (h : 1500 < header.length + body.length) :
    buildPacket header body = none := by
  have h' : ¬ header.length + body.length ≤ 1500 := by omega
  simp [buildPacket, MTU, h']

theorem toByte_mod (n : Nat) : toByte (n % 256) = toByte n := by
  apply Fin.ext
  simp [toByte]

theorem connectWith0RTT_fits (c : QuicClient) (e : Str) (sent_ok : Bool) (polls : List Poll)
    (ht : c.has_ticket = true) (hfit : 3 + c.session_ticket.length + e.length ≤ 1500) :
    connectWith0RTT c e sent_ok polls
      = { outcome := if sent_ok = true then receiveResponse polls else .returned false,
          client := c,
          sendto := [fastPathDatagram c.session_ticket e] } := by
  have hmod : c.session_ticket.length % 65536 = c.session_ticket.length := by omega
  unfold connectWith0RTT
  rw [if_pos ht]
  simp only [hmod, List.take_length, toByte_and_0xFF, Nat.shiftRight_eq_div_pow]
  rw [buildPacket_fits _ _ (by
    simp only [List.length_append, List.length_cons, List.length_nil]
    omega)]
  cases sent_ok <;> simp [fastPathDatagram, toByte_mod]

theorem fastPathDatagram_frame (t : Bytes) (e : Str) (hlen : t.length < 65536) :
    (fastPathDatagram t e).head? = some 0x03
    ∧ ((fastPathDatagram t e).getD 1 0).val * 256 + ((fastPathDatagram t e).getD 2 0).val
        = t.length
    ∧ ((fastPathDatagram t e).drop 3).take t.length = t
    ∧ (fastPathDatagram t e).drop (3 + t.length) = e
    ∧ (fastPathDatagram t e).length = 3 + t.length + e.length := by
  refine ⟨rfl, ?_, ?_, ?_, ?_⟩
  · simp only [fastPathDatagram, List.cons_append, List.getD_cons_succ, List.getD_cons_zero,
      toByte_val]
    omega
  · simp [fastPathDatagram]
  · have h3 : 3 + t.length = t.length + 1 + 1 + 1 := by omega
    rw [h3]
    simp only [fastPathDatagram, List.cons_append, List.nil_append, List.drop_succ_cons]
    exact List.drop_left t e
  · simp [fastPathDatagram]
    omega

theorem sendRegularData_client (c : QuicClient) (data : Str) (sent_ok : Bool)
    (polls : List Poll) : (sendRegularData c data sent_ok polls).client = c := by
  unfold sendRegularData
  split
  · rfl
  · split <;> rfl

theorem sendRegularData_probe (c : QuicClient) (sent_ok : Bool) (polls : List Poll) :
    sendRegularData c (lit "Hello after full handshake!") sent_ok polls
      = { outcome := if sent_ok = true then receiveResponse polls else .returned false,
          client := c, sendto := [probeDatagram] } := by
  unfold sendRegularData
  rw [buildPacket_fits _ _ (by decide)]
  cases sent_ok <;> rfl

/-- The handshake wait on a well-framed `0x02` datagram: the ticket is `buf[3 .. 3+L)`,
the probe is sent, and the function returns `true` once the wait of the probe ends. -/
theorem handshakeWait_wellframed (c : QuicClient) (probe_ok : Bool) (buf : Bytes)
    (rest : List Poll) (h0 : buf.head? = some 0x02) (h3 : 3 ≤ buf.length)
    (hL : 3 + ((buf.getD 1 0).val * 256 + (buf.getD 2 0).val) ≤ buf.length) :
    handshakeWait c probe_ok (.datagram buf :: rest)
      = { outcome := (if probe_ok = true then receiveResponse rest
                      else Outcome.returned false).thenReturnTrue,
          client := { session_ticket :=
                        (buf.drop 3).take ((buf.getD 1 0).val * 256 + (buf.getD 2 0).val),
                      has_ticket := true },
          sendto := [probeDatagram] } := by
  have h3' : ¬ buf.length < 3 := by omega
  have hL' : ¬ buf.length < 3 + ((buf.getD 1 0).val * 256 + (buf.getD 2 0).val) := by omega
  simp only [handshakeWait, h0, if_true, h3', if_false, shift_or_eq, hL',
    sendRegularData_probe]

theorem handshakeWait_malformed (c : QuicClient) (probe_ok : Bool) (buf : Bytes)
    (rest : List Poll) (h0 : buf.head? = some 0x02)
    (hbad : buf.length < 3 ∨ buf.length - 3 < (buf.getD 1 0).val * 256 + (buf.getD 2 0).val) :
    handshakeWait c probe_ok (.datagram buf :: rest)
      = { outcome := .returned false, client := c, sendto := [] } := by
  simp only [handshakeWait, h0, if_true, shift_or_eq]
  by_cases h3 : buf.length < 3
  · rw [if_pos h3]
  · rw [if_neg h3, if_pos (by omega)]

theorem handshakeWait_skip (c : QuicClient) (probe_ok : Bool) (pre rest : List Poll)
    (hpre : ∀ p ∈ pre, p.ignoredByHandshake = true) :
    handshakeWait c probe_ok (pre ++ rest) = handshakeWait c probe_ok rest := by
  induction pre with
  | nil => rfl
  | cons p pre ih =>
    have hp := hpre p (List.mem_cons_self _ _)
    have ih' := ih (fun q hq => hpre q (List.mem_cons_of_mem _ hq))
    cases p with
    | wouldBlock ms =>
      have hms : ¬ elapsedSeconds ms > 5 := by
        have : ms < 6000 := by simpa [Poll.ignoredByHandshake] using hp
        unfold elapsedSeconds
        omega
      simp only [List.cons_append, handshakeWait, hms, if_false]
      exact ih'
    | recvError =>
      simp only [List.cons_append, handshakeWait]
      exact ih'
    | datagram buf =>
      have hb : ¬ buf.head? = some 0x02 := by simpa [Poll.ignoredByHandshake] using hp
      simp only [List.cons_append, handshakeWait, hb, if_false]
      exact ih'

theorem connectWithFullHandshake_sent (c : QuicClient) (probe_ok : Bool) (polls : List Poll) :
    connectWithFullHandshake c true probe_ok polls
      = { outcome := (handshakeWait c probe_ok polls).outcome,
          client := (handshakeWait c probe_ok polls).client,
          sendto := handshakeDatagram :: (handshakeWait c probe_ok polls).sendto } := by
  unfold connectWithFullHandshake
  rw [buildPacket_fits _ _ (by decide)]
  rfl

theorem handshakeResponseDatagram_frame (t : Bytes) (hlen : t.length < 65536) :
    (handshakeResponseDatagram t).head? = some 0x02
    ∧ ((handshakeResponseDatagram t).getD 1 0).val * 256
        + ((handshakeResponseDatagram t).getD 2 0).val = t.length
    ∧ ((handshakeResponseDatagram t).drop 3).take t.length = t
    ∧ (handshakeResponseDatagram t).length = 3 + t.length := by
  refine ⟨rfl, ?_, ?_, ?_⟩
  · simp only [handshakeResponseDatagram, List.cons_append, List.getD_cons_succ,
      List.getD_cons_zero, toByte_val]
    omega
  · simp [handshakeResponseDatagram]
  · simp [handshakeResponseDatagram]
    omega

theorem iteration_handshake (srv : QuicServer) (now : Int) (src : SockAddr) (body : Bytes) :
    iteration srv (.datagram now src (0x01 :: body))
      = ((generateSessionTicket srv now (clientId src)).2,
          .sendto src (handshakeResponseDatagram (generateSessionTicket srv now (clientId src)).1))
      := by
  simp only [iteration, take_MTU_cons, dispatch_handshake, handshakeResponseDatagram,
    toByte_mod]

/-! ## The claims on the client -/

/-- C14: for every ticket `t` and early data `e` with `3 + length(t) + length(e) <= 1500`,
`connectWith0RTT` hands to `sendto` exactly one datagram, `0x03`, the two bytes of
`length(t)` in big-endian order, `t`, `e`; the `0x03` branch of the server reads the
declared length `length(t)`, takes `t` as the ticket and `e` as the early data: it
validates `t` and, on success, answers with the confirmation text followed by `e`. -/
theorem fastpath_round_trip (t : Bytes) (e : Str) (sent_ok : Bool) (polls : List Poll)
    (srv : QuicServer) (now : Int) (src : SockAddr)
    (hfit : 3 + t.length + e.length ≤ 1500) :
    (connectWith0RTT { session_ticket := t, has_ticket := true } e sent_ok polls).sendto
        = [fastPathDatagram t e]
    ∧ beValue [toByte (t.length / 256), toByte (t.length % 256)] = t.length
    ∧ ((fastPathDatagram t e).getD 1 0).val * 256 + ((fastPathDatagram t e).getD 2 0).val
        = t.length
    ∧ ((fastPathDatagram t e).drop 3).take
          (((fastPathDatagram t e).getD 1 0).val * 256
            + ((fastPathDatagram t e).getD 2 0).val) = t
    ∧ (fastPathDatagram t e).drop
          (3 + (((fastPathDatagram t e).getD 1 0).val * 256
            + ((fastPathDatagram t e).getD 2 0).val)) = e
    ∧ iteration srv (.datagram now src (fastPathDatagram t e))
        = (if (validateSessionTicket srv t []).ok = true
           then (srv, respond src [0x04] (lit "Received your 0-RTT data: " ++ e))
           else (srv, respond src [0x05] [])) := by
  obtain ⟨f0, fL, ft, fe, flen⟩ := fastPathDatagram_frame t e (by omega)
  refine ⟨?_, ?_, fL, ?_, ?_, ?_⟩
  · rw [connectWith0RTT_fits _ e sent_ok polls rfl hfit]
  · simp only [beValue, List.foldl, toByte_val]
    omega
  · rw [fL, ft]
  · rw [fL, fe]
  · have hMTU : (fastPathDatagram t e).length ≤ MTU := by
      rw [flen]
      exact hfit
    simp only [iteration, List.take_of_length_le hMTU]
    rw [dispatch_fastpath srv now src _ f0 (by omega) (by omega), fL, ft, fe]

/-- Witness for C14: the issued ticket and the early data `hello`. -/
theorem fastpath_round_trip_witness :
    (connectWith0RTT { session_ticket := issuedTicket, has_ticket := true } (lit "hello")
        true []).sendto = [fastPathDatagram issuedTicket (lit "hello")] :=
  (fastpath_round_trip issuedTicket (lit "hello") true [] servedOnce 1700000001
    loopbackClient (by decide)).1

/-- C15: for every server, sender address, clock value and Handshake body, the server
answers with the HandshakeResponse datagram of the ticket it issued; a client in
`connectWithFullHandshake` that receives this datagram, after any polls its wait goes
past, ends with `session_ticket` equal to that ticket byte for byte and `has_ticket`
true; and that ticket is what the server stores under the sender identity. -/
theorem handshake_round_trip (srv : QuicServer) (now : Int) (src : SockAddr) (body : Bytes)
    (c : QuicClient) (probe_ok : Bool) (rest : List Poll) :
    iteration srv (.datagram now src (0x01 :: body))
        = ((generateSessionTicket srv now (clientId src)).2,
            .sendto src
              (handshakeResponseDatagram (generateSessionTicket srv now (clientId src)).1))
    ∧ (connectWithFullHandshake c true probe_ok
          (.datagram (handshakeResponseDatagram
              (generateSessionTicket srv now (clientId src)).1) :: rest)).client
        = { session_ticket := (generateSessionTicket srv now (clientId src)).1,
            has_ticket := true }
    ∧ (∀ pre : List Poll, (∀ p ∈ pre, p.ignoredByHandshake = true) →
        (connectWithFullHandshake c true probe_ok
            (pre ++ .datagram (handshakeResponseDatagram
                (generateSessionTicket srv now (clientId src)).1) :: rest)).client
          = { session_ticket := (generateSessionTicket srv now (clientId src)).1,
              has_ticket := true })
    ∧ (generateSessionTicket srv now (clientId src)).2.session_tickets.find (clientId src)
        = some (generateSessionTicket srv now (clientId src)).1 := by
  have hlen := generate_ticket_length srv now (clientId src)
  have hid := clientId_length_le src
  obtain ⟨f0, fL, ft, flen⟩ :=
    handshakeResponseDatagram_frame (generateSessionTicket srv now (clientId src)).1 (by omega)
  have hw : ∀ rest' : List Poll,
      (handshakeWait c probe_ok
          (.datagram (handshakeResponseDatagram
              (generateSessionTicket srv now (clientId src)).1) :: rest')).client
        = { session_ticket := (generateSessionTicket srv now (clientId src)).1,
            has_ticket := true } := by
    intro rest'
    rw [handshakeWait_wellframed c probe_ok _ rest' f0 (by omega) (by omega), fL, ft]
  refine ⟨iteration_handshake srv now src body, ?_, ?_, ?_⟩
  · rw [connectWithFullHandshake_sent]
    exact hw rest
  · intro pre hpre
    rw [connectWithFullHandshake_sent, handshakeWait_skip c probe_ok pre _ hpre]
    exact hw rest
  · rw [generate_server]
    exact Store.find_assign_self _ _ _

/-- Witness for C15: the response arrives after two empty polls and a stray datagram. -/
theorem handshake_round_trip_witness :
    (connectWithFullHandshake freshClient true true
        ([.wouldBlock 10, .wouldBlock 20, .datagram [0x07]]
          ++ .datagram (handshakeResponseDatagram
              (generateSessionTicket freshServer 1700000000 (clientId loopbackClient)).1)
            :: [])).client
      = { session_ticket :=
            (generateSessionTicket freshServer 1700000000 (clientId loopbackClient)).1,
          has_ticket := true } :=
  (handshake_round_trip freshServer 1700000000 loopbackClient (lit "client1") freshClient
    true []).2.2.1 [.wouldBlock 10, .wouldBlock 20, .datagram [0x07]] (by decide)

/-- C16: when `has_ticket` is false, `connectWith0RTT` returns `false`, hands nothing to
`sendto` and leaves the client object as it was, for every early data, whatever the
network would have done. -/
theorem no_ticket_no_fastpath (c : QuicClient) (e : Str) (sent_ok : Bool)
    (polls : List Poll) (h : c.has_ticket = false) :
    connectWith0RTT c e sent_ok polls
      = { outcome := .returned false, client := c, sendto := [] } := by
  simp [connectWith0RTT, h]

/-- Witness for C16: a fresh client with an accept waiting. -/
theorem no_ticket_no_fastpath_witness :
    connectWith0RTT freshClient (lit "hello") true [.datagram [0x04]]
      = { outcome := .returned false, client := freshClient, sendto := [] } :=
  no_ticket_no_fastpath freshClient (lit "hello") true [.datagram [0x04]] rfl

/-- C20: when the datagram that ends the handshake wait starts with `0x02` and has fewer
than 3 bytes, or declares a ticket length beyond the bytes after the 3-byte header,
`connectWithFullHandshake` returns `false`, has handed to `sendto` the handshake packet
only (no RegularData probe), and leaves the client object, `session_ticket` and
`has_ticket`, as it was before the call. -/
theorem malformed_response_fails (c : QuicClient) (probe_ok : Bool) (d : Bytes)
    (pre rest : List Poll) (h0 : d.head? = some 0x02)
    (hbad : d.length < 3 ∨ d.length - 3 < (d.getD 1 0).val * 256 + (d.getD 2 0).val)
    (hpre : ∀ p ∈ pre, p.ignoredByHandshake = true) :
    connectWithFullHandshake c true probe_ok (pre ++ .datagram d :: rest)
      = { outcome := .returned false, client := c, sendto := [handshakeDatagram] } := by
  rw [connectWithFullHandshake_sent, handshakeWait_skip c probe_ok pre _ hpre,
    handshakeWait_malformed c probe_ok d rest h0 hbad]

/-- Witness for C20: a response declaring 22 ticket bytes and carrying 21, received by a
client that already holds a ticket. -/
theorem malformed_response_fails_witness :
    connectWithFullHandshake resumingClient true true
        ([] ++ .datagram ([0x02, 0x00, 0x16] ++ issuedTicket) :: [.datagram ticketResponse])
      = { outcome := .returned false, client := resumingClient,
          sendto := [handshakeDatagram] } :=
  malformed_response_fails resumingClient true ([0x02, 0x00, 0x16] ++ issuedTicket) []
    [.datagram ticketResponse] (by decide) (by decide) (by decide)

/-! ## The waits of the client -/

theorem elapsedSeconds_gt_iff (ms : Nat) : elapsedSeconds ms > 5 ↔ 6000 ≤ ms := by
  unfold elapsedSeconds
  omega

theorem receiveResponse_wouldBlock (ms : Nat) (rest : List Poll) :
    receiveResponse (.wouldBlock ms :: rest)
      = if 6000 ≤ ms then .returned false else receiveResponse rest := by
  by_cases h : 6000 ≤ ms
  · simp only [receiveResponse, (elapsedSeconds_gt_iff ms).2 h, if_true, h]
  · have h' : ¬ elapsedSeconds ms > 5 := fun e => h ((elapsedSeconds_gt_iff ms).1 e)
    simp only [receiveResponse, h', if_false, h]

theorem handshakeWait_wouldBlock (c : QuicClient) (probe_ok : Bool) (ms : Nat)
    (rest : List Poll) :
    handshakeWait c probe_ok (.wouldBlock ms :: rest)
      = if 6000 ≤ ms then { outcome := .returned false, client := c, sendto := [] }
        else handshakeWait c probe_ok rest := by
  by_cases h : 6000 ≤ ms
  · simp only [handshakeWait, (elapsedSeconds_gt_iff ms).2 h, if_true, h]
  · have h' : ¬ elapsedSeconds ms > 5 := fun e => h ((elapsedSeconds_gt_iff ms).1 e)
    simp only [handshakeWait, h', if_false, h]

theorem receiveResponse_datagram (b : Byte) (bs : Bytes) (rest : List Poll) :
    receiveResponse (.datagram (b :: bs) :: rest)
      = .returned (decide (b = 0x04 ∨ b = 0x07)) := by
  by_cases h4 : b = 0x04
  · subst h4
    rfl
  · by_cases h5 : b = 0x05
    · subst h5
      rfl
    · by_cases h7 : b = 0x07
      · subst h7
        rfl
      · simp [receiveResponse, h4, h5, h7]

theorem receiveResponse_skip (pre rest : List Poll) (hpre : ∀ p ∈ pre, p.passes = true) :
    receiveResponse (pre ++ rest) = receiveResponse rest := by
  induction pre with
  | nil => rfl
  | cons p pre ih =>
    have hp := hpre p (List.mem_cons_self _ _)
    have ih' := ih (fun q hq => hpre q (List.mem_cons_of_mem _ hq))
    cases p with
    | wouldBlock ms =>
      have hms : ¬ 6000 ≤ ms := by
        have : ms < 6000 := by simpa [Poll.passes] using hp
        omega
      rw [List.cons_append, receiveResponse_wouldBlock, if_neg hms]
      exact ih'
    | recvError =>
      simp only [List.cons_append, receiveResponse]
      exact ih'
    | datagram buf =>
      have hb : buf = [] := by simpa [Poll.passes] using hp
      subst hb
      simp only [List.cons_append, receiveResponse]
      exact ih'

theorem receiveResponse_all_pass (polls : List Poll) (h : ∀ p ∈ polls, p.passes = true) :
    receiveResponse polls = .waiting := by
  have := receiveResponse_skip polls [] h
  simpa using this

theorem receiveResponse_true_split (polls : List Poll)
    (h : receiveResponse polls = .returned true) :
    ∃ (pre : List Poll) (d : Bytes) (rest : List Poll),
      polls = pre ++ .datagram d :: rest ∧ (∀ p ∈ pre, p.passes = true)
        ∧ (d.head? = some 0x04 ∨ d.head? = some 0x07) := by
  induction polls with
  | nil => simp [receiveResponse] at h
  | cons p polls ih =>
    have step : p.passes = true → receiveResponse polls = .returned true →
        ∃ (pre : List Poll) (d : Bytes) (rest : List Poll),
          p :: polls = pre ++ .datagram d :: rest ∧ (∀ q ∈ pre, q.passes = true)
            ∧ (d.head? = some 0x04 ∨ d.head? = some 0x07) := by
      intro hp hr
      obtain ⟨pre, d, rest, e, hpre, hd⟩ := ih hr
      refine ⟨p :: pre, d, rest, by rw [e, List.cons_append], ?_, hd⟩
      intro q hq
      rcases List.mem_cons.1 hq with rfl | hq'
      · exact hp
      · exact hpre q hq'
    cases p with
    | wouldBlock ms =>
      rw [receiveResponse_wouldBlock] at h
      by_cases hms : 6000 ≤ ms
      · rw [if_pos hms] at h
        exact absurd h (by decide)
      · rw [if_neg hms] at h
        exact step (by simp [Poll.passes]; omega) h
    | recvError => exact step rfl (by simpa only [receiveResponse] using h)
    | datagram buf =>
      cases buf with
      | nil => exact step rfl (by simpa only [receiveResponse] using h)
      | cons b bs =>
        rw [receiveResponse_datagram] at h
        have hb : b = 0x04 ∨ b = 0x07 := by simpa using h
        refine ⟨[], b :: bs, polls, rfl, by simp, ?_⟩
        rcases hb with rfl | rfl
        · exact Or.inl rfl
        · exact Or.inr rfl

theorem receiveResponse_ne_overrun (polls : List Poll) :
    receiveResponse polls ≠ .overrun := by
  induction polls with
  | nil => simp [receiveResponse]
  | cons p polls ih =>
    cases p with
    | wouldBlock ms =>
      rw [receiveResponse_wouldBlock]
      split
      · simp
      · exact ih
    | recvError => simpa only [receiveResponse] using ih
    | datagram buf =>
      cases buf with
      | nil => simpa only [receiveResponse] using ih
      | cons b bs => simp [receiveResponse_datagram]

/-- C17 as stated fails: with a ticket held and the FastPathData datagram sent, a first
datagram of type RegularResponse (`0x07`) makes `connectWith0RTT` return `true`. -/
theorem regular_response_ends_fastpath_in_success :
    resumingClient.has_ticket = true
    ∧ connectWith0RTT resumingClient (lit "hello") true
        [.datagram (0x07 :: lit "Received your regular data: x")]
      = { outcome := .returned true, client := resumingClient, sendto := [helloFastPath] } := by
  decide

/-- C17, amended: with a ticket held, the packet within `packet[1500]` and the `sendto`
successful, `connectWith0RTT` returns `true` exactly when the first non-empty datagram
received before a timed-out poll has type FastPathAccept (`0x04`) or RegularResponse
(`0x07`); a first datagram of any other type makes it return `false`, so does a poll
that times out first; while every poll is passed over the call is still waiting. The
datagram sent is the FastPathData datagram and the client object is unchanged. -/
theorem fastpath_attempt_outcome (c : QuicClient) (e : Str) (polls : List Poll)
    (ht : c.has_ticket = true) (hfit : 3 + c.session_ticket.length + e.length ≤ 1500) :
    ((connectWith0RTT c e true polls).outcome = .returned true
        ↔ ∃ (pre : List Poll) (d : Bytes) (rest : List Poll),
            polls = pre ++ .datagram d :: rest ∧ (∀ p ∈ pre, p.passes = true)
              ∧ (d.head? = some 0x04 ∨ d.head? = some 0x07))
    ∧ (∀ (pre : List Poll) (d : Bytes) (rest : List Poll) (b : Byte),
        polls = pre ++ .datagram d :: rest → (∀ p ∈ pre, p.passes = true) →
        d.head? = some b → b ≠ 0x04 → b ≠ 0x07 →
        (connectWith0RTT c e true polls).outcome = .returned false)
    ∧ (∀ (pre : List Poll) (ms : Nat) (rest : List Poll),
        polls = pre ++ .wouldBlock ms :: rest → (∀ p ∈ pre, p.passes = true) → 6000 ≤ ms →
        (connectWith0RTT c e true polls).outcome = .returned false)
    ∧ ((∀ p ∈ polls, p.passes = true) → (connectWith0RTT c e true polls).outcome = .waiting)
    ∧ (connectWith0RTT c e true polls).sendto = [fastPathDatagram c.session_ticket e]
    ∧ (connectWith0RTT c e true polls).client = c := by
  have hcall := connectWith0RTT_fits c e true polls ht hfit
  have hout : (connectWith0RTT c e true polls).outcome = receiveResponse polls := by
    rw [hcall]
    rfl
  refine ⟨?_, ?_, ?_, ?_, by rw [hcall], by rw [hcall]⟩
  · rw [hout]
    constructor
    · exact receiveResponse_true_split polls
    · rintro ⟨pre, d, rest, rfl, hpre, hd⟩
      rw [receiveResponse_skip pre _ hpre]
      cases d with
      | nil => simp at hd
      | cons b bs =>
        rw [receiveResponse_datagram]
        have hb : b = 0x04 ∨ b = 0x07 := by simpa using hd
        simp [hb]
  · intro pre d rest b hp hpre hd h4 h7
    rw [hout, hp, receiveResponse_skip pre _ hpre]
    cases d with
    | nil => simp at hd
    | cons b' bs =>
      have hb : b' = b := by simpa using hd
      subst hb
      rw [receiveResponse_datagram]
      simp [h4, h7]
  · intro pre ms rest hp hpre hms
    rw [hout, hp, receiveResponse_skip pre _ hpre, receiveResponse_wouldBlock, if_pos hms]
  · intro hall
    rw [hout]
    exact receiveResponse_all_pass polls hall

/-- Witness for C17 (amended): an accept after one empty poll. -/
theorem fastpath_attempt_outcome_witness :
    (connectWith0RTT resumingClient (lit "hello") true
        [.wouldBlock 100, .datagram (0x04 :: lit "ok")]).outcome = .returned true :=
  (fastpath_attempt_outcome resumingClient (lit "hello")
    [.wouldBlock 100, .datagram (0x04 :: lit "ok")] (by decide) (by decide)).1.2
    ⟨[.wouldBlock 100], 0x04 :: lit "ok", [], rfl, by decide, Or.inl rfl⟩

/-- C18 as stated fails: a non-empty datagram of type `0x07` received while
`connectWithFullHandshake` waits does not abort it; the HandshakeResponse that follows
is taken, the ticket is stored and the call returns `true`. -/
theorem stray_datagram_does_not_abort_handshake :
    connectWithFullHandshake freshClient true true
        [.datagram (0x07 :: lit "x"), .datagram ticketResponse, .datagram [0x07]]
      = { outcome := .returned true, client := resumingClient,
          sendto := [handshakeDatagram, probeDatagram] } := by
  decide

/-- C18, amended: a datagram received while `connectWithFullHandshake` waits whose first
byte is not `0x02` is passed over: the call goes on exactly as if it had not arrived, so
it neither makes the handshake return failure nor stores a ticket; with nothing after
it the call is still waiting and the client object is as before. -/
theorem other_types_ignored_in_handshake (c : QuicClient) (handshake_ok probe_ok : Bool)
    (d : Bytes) (rest : List Poll) (h : d.head? ≠ some 0x02) :
    connectWithFullHandshake c handshake_ok probe_ok (.datagram d :: rest)
        = connectWithFullHandshake c handshake_ok probe_ok rest
    ∧ connectWithFullHandshake c true probe_ok [.datagram d]
        = { outcome := .waiting, client := c, sendto := [handshakeDatagram] } := by
  have hskip : ∀ rest' : List Poll,
      handshakeWait c probe_ok (.datagram d :: rest') = handshakeWait c probe_ok rest' := by
    intro rest'
    have := handshakeWait_skip c probe_ok [.datagram d] rest'
      (by
        intro p hp
        obtain rfl : p = .datagram d := by simpa using hp
        simpa [Poll.ignoredByHandshake] using h)
    simpa using this
  constructor
  · unfold connectWithFullHandshake
    rw [hskip rest]
  · rw [connectWithFullHandshake_sent, hskip []]
    rfl

/-- Witness for C18 (amended): a stray FastPathReject before the response. -/
theorem other_types_ignored_in_handshake_witness :
    connectWithFullHandshake freshClient true true [.datagram [0x05], .datagram ticketResponse]
      = connectWithFullHandshake freshClient true true [.datagram ticketResponse] :=
  (other_types_ignored_in_handshake freshClient true true [0x05] [.datagram ticketResponse]
    (by decide)).1

/-- C19 as stated fails: a poll made 5500 ms into a wait, with no datagram arrived, does
not fail with Timeout, in `receiveResponse` as in the handshake wait; the wait goes on
and takes a datagram that arrives afterwards. -/
theorem no_timeout_at_5500_ms :
    5000 < 5500
    ∧ receiveResponse [.wouldBlock 5500] = .waiting
    ∧ receiveResponse [.wouldBlock 5500, .datagram [0x04]] = .returned true
    ∧ (connectWithFullHandshake freshClient true true [.wouldBlock 5500]).outcome = .waiting
    ∧ (connectWithFullHandshake freshClient true true
        [.wouldBlock 5500, .datagram ticketResponse, .datagram [0x07]]).outcome
        = .returned true := by
  decide

/-- C19, amended: the elapsed time is compared in whole seconds, `elapsed > 5`. In a wait
in which no datagram has arrived, a poll made `t` ms after its start fails with Timeout
exactly when `t >= 6000`, in `receiveResponse` and in the handshake wait of
`connectWithFullHandshake` alike; a poll made before that leaves the wait going with the
next poll. -/
theorem timeout_after_six_seconds (t : Nat) (rest : List Poll) (c : QuicClient)
    (probe_ok : Bool) :
    (elapsedSeconds t > 5 ↔ 6000 ≤ t)
    ∧ (receiveResponse [.wouldBlock t] = .returned false ↔ 6000 ≤ t)
    ∧ ((connectWithFullHandshake c true probe_ok [.wouldBlock t]).outcome = .returned false
        ↔ 6000 ≤ t)
    ∧ (6000 ≤ t →
        receiveResponse (.wouldBlock t :: rest) = .returned false
        ∧ connectWithFullHandshake c true probe_ok (.wouldBlock t :: rest)
            = { outcome := .returned false, client := c, sendto := [handshakeDatagram] })
    ∧ (t < 6000 →
        receiveResponse (.wouldBlock t :: rest) = receiveResponse rest
        ∧ connectWithFullHandshake c true probe_ok (.wouldBlock t :: rest)
            = connectWithFullHandshake c true probe_ok rest) := by
  refine ⟨elapsedSeconds_gt_iff t, ?_, ?_, ?_, ?_⟩
  · rw [receiveResponse_wouldBlock]
    by_cases h : 6000 ≤ t
    · simp [h]
    · simp [h, receiveResponse]
  · rw [connectWithFullHandshake_sent, handshakeWait_wouldBlock]
    by_cases h : 6000 ≤ t
    · simp [h]
    · simp [h, handshakeWait]
  · intro h
    constructor
    · rw [receiveResponse_wouldBlock, if_pos h]
    · rw [connectWithFullHandshake_sent, handshakeWait_wouldBlock, if_pos h]
  · intro h
    have h' : ¬ 6000 ≤ t := by omega
    constructor
    · rw [receiveResponse_wouldBlock, if_neg h']
    · rw [connectWithFullHandshake_sent, connectWithFullHandshake_sent,
        handshakeWait_wouldBlock, if_neg h']

/-- Witness for C19 (amended): a poll at exactly 6000 ms times out. -/
theorem timeout_after_six_seconds_witness :
    receiveResponse (.wouldBlock 6000 :: [.datagram [0x04]]) = .returned false
    ∧ connectWithFullHandshake freshClient true true
          (.wouldBlock 6000 :: [.datagram [0x04]])
        = { outcome := .returned false, client := freshClient,
            sendto := [handshakeDatagram] } :=
  (timeout_after_six_seconds 6000 [.datagram [0x04]] freshClient true).2.2.2.1 (by decide)

/-! ## The response buffer -/

theorem handshake_response_fits (srv : QuicServer) (now : Int) (src : SockAddr) :
    3 + (generateSessionTicket srv now (clientId src)).1.length ≤ 26 := by
  have hlen := generate_ticket_length srv now (clientId src)
  have hid := clientId_length_le src
  omega

theorem regular_overrun_of_large (srv : QuicServer) (now : Int) (src : SockAddr)
    (data : Bytes) (hbig : 1471 < data.length) :
    dispatch srv now src (0x06 :: data) = (srv, .overrun) := by
  have h61 : ¬ ((6 : Byte) = 1) := by decide
  have h63 : ¬ ((6 : Byte) = 3) := by decide
  simp only [dispatch, h61, h63, if_false, if_true, List.drop_succ_cons, List.drop_zero]
  rw [respond_overrun]
  have ht : (lit "Received your regular data: ").length = 28 := by decide
  simp only [List.length_append, List.length_cons, List.length_nil, ht]
  omega

theorem fastpath_overrun_of_large (srv : QuicServer) (now : Int) (src : SockAddr) (d : Bytes)
    (h0 : d.head? = some 0x03) (h3 : 3 ≤ d.length)
    (hL : 3 + ((d.getD 1 0).val * 256 + (d.getD 2 0).val) ≤ d.length)
    (hv : (validateSessionTicket srv
            ((d.drop 3).take ((d.getD 1 0).val * 256 + (d.getD 2 0).val)) []).ok = true)
    (hbig : 1500 < 27 + (d.length - (3 + ((d.getD 1 0).val * 256 + (d.getD 2 0).val)))) :
    dispatch srv now src d = (srv, .overrun) := by
  rw [dispatch_fastpath srv now src d h0 h3 hL, if_pos hv, respond_overrun]
  have ht : (lit "Received your 0-RTT data: ").length = 26 := by decide
  simp only [List.length_append, List.length_cons, List.length_nil, List.length_drop, ht]
  omega

set_option maxRecDepth 100000 in
/-- C21, evaluated where it fails: `fullSizeRegular` and `fullSizeFastPath` are received
datagrams of exactly 1500 bytes. For the first the reply needs `1 + 28 + 1499 = 1528`
bytes, for the second, whose ticket `validateSessionTicket` accepts,
`1 + 26 + 1476 = 1503` bytes; neither is at most 1500, the `memcpy` into
`response[1500]` runs past the array and the iteration ends in `Action.overrun`. -/
theorem response_buffer_overrun :
    fullSizeRegular.length = 1500
    ∧ fullSizeRegular.head? = some 0x06
    ∧ 1 + (lit "Received your regular data: ").length + (fullSizeRegular.drop 1).length = 1528
    ∧ iteration servedOnce (.datagram 1700000200 loopbackClient fullSizeRegular)
        = (servedOnce, .overrun)
    ∧ fullSizeFastPath.length = 1500
    ∧ fullSizeFastPath.head? = some 0x03
    ∧ (validateSessionTicket servedOnce ((fullSizeFastPath.drop 3).take 21) []).ok = true
    ∧ 1 + (lit "Received your 0-RTT data: ").length + (fullSizeFastPath.drop 24).length = 1503
    ∧ iteration servedOnce (.datagram 1700000200 loopbackClient fullSizeFastPath)
        = (servedOnce, .overrun) := by
  decide

/-! ## The invariant of the store -/

theorem Store.mem_assign (m : Store) (k : Str) (v : Bytes) (e : Str × Bytes)
    (h : e ∈ m.assign k v) : e = (k, v) ∨ e ∈ m := by
  induction m with
  | nil =>
    left
    simpa [Store.assign] using h
  | cons e0 rest ih =>
    obtain ⟨k0, v0⟩ := e0
    by_cases hk : k0 = k
    · simp only [Store.assign, hk, if_true, List.mem_cons] at h
      rcases h with h | h
      · exact Or.inl h
      · exact Or.inr (List.mem_cons_of_mem _ h)
    · simp only [Store.assign, hk, if_false, List.mem_cons] at h
      rcases h with h | h
      · exact Or.inr (by rw [h]; exact List.mem_cons_self _ _)
      · rcases ih h with h' | h'
        · exact Or.inl h'
        · exact Or.inr (List.mem_cons_of_mem _ h')

theorem Store.find_of_mem (m : Store) (k : Str) (v : Bytes) (hnd : m.keys.Nodup)
    (h : (k, v) ∈ m) : m.find k = some v := by
  induction m with
  | nil => simp at h
  | cons e0 rest ih =>
    obtain ⟨k0, v0⟩ := e0
    have hnd' : k0 ∉ Store.keys rest ∧ (Store.keys rest).Nodup := by
      simpa [Store.keys] using hnd
    rcases List.mem_cons.1 h with h | h
    · obtain ⟨rfl, rfl⟩ := Prod.mk.inj h
      simp [Store.find]
    · have hk : k ∈ Store.keys rest := List.mem_map_of_mem Prod.fst h
      have hne : ¬ k0 = k := fun e => hnd'.1 (e ▸ hk)
      simp only [Store.find, hne, if_false]
      exact ih hnd'.2 h

theorem generated_entry_shape (srv : QuicServer) (now : Int) (id : Str) :
    Store.EntryShape (id, (generateSessionTicket srv now id).1) :=
  ⟨generate_ticket_length srv now id, rfl, rfl⟩

theorem iteration_keeps_shape (srv : QuicServer) (i : Input)
    (h : ∀ e ∈ srv.session_tickets, Store.EntryShape e) :
    ∀ e ∈ (iteration srv i).1.session_tickets, Store.EntryShape e := by
  cases i with
  | wouldBlock => exact h
  | recvError => exact h
  | interrupt => exact h
  | datagram now src wire =>
    rcases dispatch_server_cases srv now src (wire.take MTU) with e | e
    · simp only [iteration, e]
      exact h
    · simp only [iteration, e, generate_server]
      intro x hx
      rcases Store.mem_assign _ _ _ x hx with rfl | hx'
      · exact generated_entry_shape srv now (clientId src)
      · exact h x hx'

theorem iteration_keeps_nodup (srv : QuicServer) (i : Input)
    (h : srv.session_tickets.keys.Nodup) :
    (iteration srv i).1.session_tickets.keys.Nodup := by
  cases i with
  | wouldBlock => exact h
  | recvError => exact h
  | interrupt => exact h
  | datagram now src wire =>
    rcases dispatch_server_cases srv now src (wire.take MTU) with e | e
    · simp only [iteration, e]
      exact h
    · simp only [iteration, e, generate_server]
      exact Store.keys_assign_nodup _ _ _ h

/-- Whatever every iteration keeps, the state that the loop reaches has. -/
theorem loop_keeps (P : QuicServer → Prop)
    (hstep : ∀ (s : QuicServer) (i : Input), P s → P (iteration s i).1)
    (inputs : List Input) (srv : QuicServer) (h : P srv) : P (loop srv inputs).server := by
  induction inputs generalizing srv with
  | nil => exact h
  | cons i rest ih =>
    have hs := hstep srv i h
    unfold loop
    by_cases hrun : srv.running = true
    · rw [if_pos hrun]
      rcases hit : iteration srv i with ⟨srv', act⟩
      rw [hit] at hs
      cases act with
      | idle => exact ih srv' hs
      | sendto dest bytes => exact ih srv' hs
      | overrun => exact hs
    · rw [if_neg hrun]
      exact h

/-- C22: in every state that `run` reaches from a server with an empty session store,
whatever the inputs, the keys of the store are distinct and every entry `(k, v)` has
`length(v) = 7 + length(k)`, `v` beginning with `T`, `K`, `T` and `v` from offset 7 on
equal to `k`; `find(k)` gives `v`, and `validateSessionTicket` on `v` returns `true`
with output identity `k`. -/
theorem stored_tickets_shape (srv : QuicServer) (inputs : List Input) (k : Str) (v : Bytes)
    (cid : Str) (hempty : srv.session_tickets = [])
    (hentry : (k, v) ∈ (run srv inputs).server.session_tickets) :
    v.length = 7 + k.length
    ∧ v.take 3 = [charByte 'T', charByte 'K', charByte 'T']
    ∧ v.drop 7 = k
    ∧ (run srv inputs).server.session_tickets.keys.Nodup
    ∧ (run srv inputs).server.session_tickets.find k = some v
    ∧ validateSessionTicket (run srv inputs).server v cid
        = { ok := true, client_id := k, server := (run srv inputs).server } := by
  have hshape : ∀ e ∈ (run srv inputs).server.session_tickets, Store.EntryShape e :=
    loop_keeps (fun s => ∀ e ∈ s.session_tickets, Store.EntryShape e)
      iteration_keeps_shape inputs { srv with running := true }
      (by
        intro e he
        simp [hempty] at he)
  have hnd : (run srv inputs).server.session_tickets.keys.Nodup :=
    loop_keeps (fun s => s.session_tickets.keys.Nodup)
      iteration_keeps_nodup inputs { srv with running := true }
      (by simp [hempty, Store.keys])
  obtain ⟨hlen, htkt, hdrop⟩ := hshape (k, v) hentry
  have hfind := Store.find_of_mem _ k v hnd hentry
  refine ⟨hlen, htkt, hdrop, hnd, hfind, ?_⟩
  have h7 : ¬ v.length < 7 := by
    have : v.length = 7 + k.length := hlen
    omega
  have hdrop' : v.drop 7 = k := hdrop
  unfold validateSessionTicket
  rw [if_neg h7]
  simp only [hdrop', hfind, Option.isSome_some]

/-- Witness for C22: the entry written by one handshake from the loopback client. -/
theorem stored_tickets_shape_witness :
    issuedTicket.length = 7 + (clientId loopbackClient).length
    ∧ issuedTicket.take 3 = [charByte 'T', charByte 'K', charByte 'T']
    ∧ issuedTicket.drop 7 = clientId loopbackClient :=
  have h := stored_tickets_shape freshServer
    [.datagram 1700000000 loopbackClient handshakeDatagram]
    (clientId loopbackClient) issuedTicket [] rfl (by decide)
  ⟨h.1, h.2.1, h.2.2.1⟩

/-! ## The liveness probe after the handshake -/

theorem handshake_after_response (c : QuicClient) (probe_ok : Bool) (buf : Bytes)
    (pre rest : List Poll) (h0 : buf.head? = some 0x02) (h3 : 3 ≤ buf.length)
    (hL : 3 + ((buf.getD 1 0).val * 256 + (buf.getD 2 0).val) ≤ buf.length)
    (hpre : ∀ p ∈ pre, p.ignoredByHandshake = true) :
    connectWithFullHandshake c true probe_ok (pre ++ .datagram buf :: rest)
      = { outcome := (if probe_ok = true then receiveResponse rest
                      else Outcome.returned false).thenReturnTrue,
          client := { session_ticket :=
                        (buf.drop 3).take ((buf.getD 1 0).val * 256 + (buf.getD 2 0).val),
                      has_ticket := true },
          sendto := [handshakeDatagram, probeDatagram] } := by
  rw [connectWithFullHandshake_sent, handshakeWait_skip c probe_ok pre _ hpre,
    handshakeWait_wellframed c probe_ok buf rest h0 h3 hL]

theorem receiveResponse_first_datagram (pre rest : List Poll) (d : Bytes)
    (hpre : ∀ p ∈ pre, p.passes = true) (hd : d ≠ []) :
    receiveResponse (pre ++ .datagram d :: rest)
      = .returned (decide (d.head? = some 0x04 ∨ d.head? = some 0x07)) := by
  rw [receiveResponse_skip pre _ hpre]
  cases d with
  | nil => exact absurd rfl hd
  | cons b bs =>
    rw [receiveResponse_datagram]
    simp

theorem receiveResponse_first_timeout (pre rest : List Poll) (ms : Nat)
    (hpre : ∀ p ∈ pre, p.passes = true) (hms : 6000 ≤ ms) :
    receiveResponse (pre ++ .wouldBlock ms :: rest) = .returned false := by
  rw [receiveResponse_skip pre _ hpre, receiveResponse_wouldBlock, if_pos hms]

/-- C23: once the handshake wait of `connectWithFullHandshake` has taken a well-framed
HandshakeResponse, the client holds the extracted ticket `buf[3 .. 3+L)` with
`has_ticket` true, the probe is sent, and the call returns `true` however the wait of
the probe ends: with whatever `receiveResponse` returns, so on a first datagram of any
type (RegularResponse, FastPathReject, unknown) and on a timeout, and also when the
`sendto` of the probe fails. -/
theorem handshake_succeeds_whatever_probe (c : QuicClient) (probe_ok : Bool) (buf : Bytes)
    (pre rest : List Poll) (h0 : buf.head? = some 0x02) (h3 : 3 ≤ buf.length)
    (hL : 3 + ((buf.getD 1 0).val * 256 + (buf.getD 2 0).val) ≤ buf.length)
    (hpre : ∀ p ∈ pre, p.ignoredByHandshake = true) :
    (connectWithFullHandshake c true probe_ok (pre ++ .datagram buf :: rest)).client
        = { session_ticket :=
              (buf.drop 3).take ((buf.getD 1 0).val * 256 + (buf.getD 2 0).val),
            has_ticket := true }
    ∧ (connectWithFullHandshake c true probe_ok (pre ++ .datagram buf :: rest)).sendto
        = [handshakeDatagram, probeDatagram]
    ∧ (∀ b : Bool, receiveResponse rest = .returned b →
        (connectWithFullHandshake c true probe_ok (pre ++ .datagram buf :: rest)).outcome
          = .returned true)
    ∧ (∀ (pre2 : List Poll) (d : Bytes) (rest2 : List Poll),
        rest = pre2 ++ .datagram d :: rest2 → (∀ p ∈ pre2, p.passes = true) → d ≠ [] →
        (connectWithFullHandshake c true probe_ok (pre ++ .datagram buf :: rest)).outcome
          = .returned true)
    ∧ (∀ (pre2 : List Poll) (ms : Nat) (rest2 : List Poll),
        rest = pre2 ++ .wouldBlock ms :: rest2 → (∀ p ∈ pre2, p.passes = true) → 6000 ≤ ms →
        (connectWithFullHandshake c true probe_ok (pre ++ .datagram buf :: rest)).outcome
          = .returned true)
    ∧ (probe_ok = false →
        (connectWithFullHandshake c true probe_ok (pre ++ .datagram buf :: rest)).outcome
          = .returned true) := by
  have hcall := handshake_after_response c probe_ok buf pre rest h0 h3 hL hpre
  have hret : ∀ b : Bool, receiveResponse rest = .returned b →
      (connectWithFullHandshake c true probe_ok (pre ++ .datagram buf :: rest)).outcome
        = .returned true := by
    intro b hb
    rw [hcall]
    cases probe_ok
    · rfl
    · simp only [if_true, hb]
      rfl
  refine ⟨by rw [hcall], by rw [hcall], hret, ?_, ?_, ?_⟩
  · intro pre2 d rest2 hr hp2 hd
    exact hret _ (by rw [hr]; exact receiveResponse_first_datagram pre2 rest2 d hp2 hd)
  · intro pre2 ms rest2 hr hp2 hms
    exact hret _ (by rw [hr]; exact receiveResponse_first_timeout pre2 rest2 ms hp2 hms)
  · intro hp
    rw [hcall, hp]
    rfl

/-- Witness for C23: after the HandshakeResponse the probe is answered with a
FastPathReject; the handshake returns `true` and the ticket is held. -/
theorem handshake_succeeds_whatever_probe_witness :
    (connectWithFullHandshake freshClient true true
        ([.wouldBlock 10] ++ .datagram ticketResponse :: [.wouldBlock 20, .datagram [0x05]])).outcome
      = .returned true :=
  (handshake_succeeds_whatever_probe freshClient true ticketResponse [.wouldBlock 10]
    [.wouldBlock 20, .datagram [0x05]] (by decide) (by decide) (by decide)
    (by decide)).2.2.2.1 [.wouldBlock 20] [0x05] [] rfl (by decide) (by decide)

end QuicReplay
